import Mathlib

/-!
Verification of the Glk adapter of the zork1-web repository.

The adapter (`js/glk-adapter.js`, `createGlk`) bridges the ifvms Z-machine to a
terminal UI.  We give a shallow embedding of its state and operations:

* JS strings of output text are modelled as lists of UTF-16 code-unit values
  (`List Nat`); `String.fromCharCode(ch)` truncates its argument to 16 bits,
  modelled as `ch % 65536`, and `String.fromCodePoint(ch)` is modelled as `ch`.
* VM-owned mutable numeric buffers (line-input buffers, memory-stream buffers,
  bulk-read targets) are shared by reference in JS; we model them in an explicit
  heap `List (List Nat)` addressed by index, so aliasing is preserved.
* `terminal.print` calls are recorded in order in the `printed` field;
  `terminal.waitForInput(cb)` stores a single resolver slot (modelled by the
  `resolver` flag; the callback body itself reads the adapter's `inputState`
  at fire time and is embedded as `deliverInput`).
* `localStorage` is an association list from keys to stored strings.
* A JS array value (`str.data`) is always truthy; an absent field
  (`str.buf`, `str.fref`) is modelled by `Option` with truthiness `isSome`.
-/

/-- A value stored in a `RefStruct` field slot: either a JS number or a
reference to a window object (slot 1 of an event holds the window). -/
inductive GlkVal where
  | num (n : Int)
  | win (w : Nat)
deriving DecidableEq, Repr

/-- `RefStruct` from the adapter: event/result structure with indexed fields,
constructed as `[0, 0, 0, 0]`. -/
structure RefStruct where
  fields : List GlkVal
deriving DecidableEq, Repr

/-- `new RefStruct()`: fields start as `[0, 0, 0, 0]`. -/
def RefStruct.new : RefStruct := ⟨[.num 0, .num 0, .num 0, .num 0]⟩

/-- `set_field(idx, val)`: `this.fields[idx] = val`.  All adapter call sites
use `idx < 4`, within the initial length, so plain in-range list update is a
faithful model. -/
def RefStruct.set_field (r : RefStruct) (idx : Nat) (v : GlkVal) : RefStruct :=
  ⟨r.fields.set idx v⟩

/-- `get_field(idx)`: `this.fields[idx] || 0`.  A missing slot reads as `0`;
the only falsy stored `GlkVal` is `num 0`, which `|| 0` maps to itself, so
`getD` with default `num 0` is exact. -/
def RefStruct.get_field (r : RefStruct) (idx : Nat) : GlkVal :=
  r.fields.getD idx (.num 0)

/-- The kind of input request recorded on a window
(`win.input_request_type`: the strings `'line'` / `'char'`, or `null`). -/
inductive InputKind where
  | line
  | char
deriving DecidableEq, Repr

/-- A Glk stream object as built by `createStream` and extended by the
`glk_stream_open_*` functions.  `buf` is a heap reference to the bound
fixed-capacity VM buffer of a memory stream; `fref` holds the filename of the
bound file reference; unset JS fields are `none`. -/
structure GStream where
  rock : Int
  write_count : Nat
  read_count : Nat
  data : List Nat
  pos : Int
  buf : Option Nat
  buflen : Nat
  fref : Option String
  fmode : Option Nat
deriving DecidableEq, Repr

/-- `createStream(rock)` (the stream fields; registration in the `streams`
array is done by the operations that call it). -/
def freshStream (rock : Int) : GStream :=
  { rock := rock, write_count := 0, read_count := 0, data := [], pos := 0
    buf := none, buflen := 0, fref := none, fmode := none }

/-- A window object as built by `createWindow`; `strId` is the index of its
stream in the state's stream list. -/
structure Window where
  wtype : Nat
  rock : Int
  strId : Nat
  input_request_type : Option InputKind
  line_input_buf : Option Nat
deriving DecidableEq, Repr

/-- The complete mutable state of one adapter instance together with the
observable effects on its collaborators:
`outputBuffer`/`printed` for the terminal's `print`, `heap` for VM-owned
buffers, `resolver` for the terminal's stored `waitForInput` callback,
`store` for `localStorage`. -/
structure GlkState where
  outputBuffer : List Nat
  printed : List (List Nat)
  heap : List (List Nat)
  streams : List GStream
  windows : List Window
  currentStream : Nat
  inputBuffer : Option Nat
  inputMaxLen : Nat
  inputPending : Bool
  inputEvent : Option RefStruct
  resolver : Bool
  store : List (String × String)
deriving DecidableEq, Repr

/-- Index of the main stream (`mainStream`), the first stream created. -/
def mainStreamId : Nat := 0

/-- Index of the main window (`mainWindow`), the first window created. -/
def mainWindowId : Nat := 0

/-- Initial adapter state after `createGlk(terminal)` runs: one main window of
type text-buffer with rock 201 owning the main stream, which is also the
current stream.  `heap` holds the VM-owned buffers that exist at that point
and `store` the current `localStorage` contents. -/
def initState (heap : List (List Nat)) (store : List (String × String)) : GlkState :=
  { outputBuffer := [], printed := [], heap := heap
    streams := [freshStream 201]
    windows := [{ wtype := 3, rock := 201, strId := 0
                  input_request_type := none, line_input_buf := none }]
    currentStream := 0
    inputBuffer := none, inputMaxLen := 0, inputPending := false
    inputEvent := none, resolver := false, store := store }

/-- Look a stream up by index (all operations are invoked by the VM on streams
that exist; the default is never reached under the theorems' hypotheses). -/
def getStream (st : GlkState) (sid : Nat) : GStream :=
  st.streams.getD sid (freshStream 0)

/-- Replace stream `sid` (models in-place mutation of the stream object). -/
def setStream (st : GlkState) (sid : Nat) (s : GStream) : GlkState :=
  { st with streams := st.streams.set sid s }

/-- Look a window up by index. -/
def getWindow (st : GlkState) (wid : Nat) : Window :=
  st.windows.getD wid { wtype := 3, rock := 0, strId := 0
                        input_request_type := none, line_input_buf := none }

/-- Replace window `wid` (models in-place mutation of the window object). -/
def setWindow (st : GlkState) (wid : Nat) (w : Window) : GlkState :=
  { st with windows := st.windows.set wid w }

/-- Typed-array element write `arr[i] = v` on heap buffer `b`: out-of-range
indices are silently ignored (integer-indexed exotic object semantics), which
`List.set` models exactly; the buffer's length never changes. -/
def heapWrite (heap : List (List Nat)) (b : Nat) (i : Nat) (v : Nat) :
    List (List Nat) :=
  heap.set b ((heap.getD b []).set i v)

/-- Typed-array element read `arr[i]` from heap buffer `b`.  An out-of-range
read yields `undefined` in JS; no reachable adapter state distinguishes it
(the guards compare the cursor against the buffer's capacity), so it is
modelled by the default `0`. -/
def heapRead (heap : List (List Nat)) (b : Nat) (i : Int) : Nat :=
  if 0 ≤ i then (heap.getD b []).getD i.toNat 0 else 0

/-- Element read `str.data[i]` (same `undefined` remark as `heapRead`). -/
def dataRead (l : List Nat) (i : Int) : Nat :=
  if 0 ≤ i then l.getD i.toNat 0 else 0

/-- The flush pattern `if (outputBuffer) { terminal.print(outputBuffer);
outputBuffer = ''; }` shared by `update`, `_request_line`,
`glk_request_char_event` and `glk_exit`.  An empty JS string is falsy, so an
empty buffer is not printed. -/
def flushOutput (st : GlkState) : GlkState :=
  if st.outputBuffer = [] then st
  else { st with printed := st.printed ++ [st.outputBuffer], outputBuffer := [] }

/-- `update()`: the per-VM-step flush checkpoint. -/
def update (st : GlkState) : GlkState :=
  flushOutput st

/-- Code units of the fixed banner `'\n*** Game session ended ***'` printed by
`glk_exit` after flushing. -/
def exitBanner : List Nat :=
  "\n*** Game session ended ***".toList.map Char.toNat

/-- `glk_exit()`: flush the output buffer, then print the session-ended
banner. -/
def glk_exit (st : GlkState) : GlkState :=
  let st1 := flushOutput st
  { st1 with printed := st1.printed ++ [exitBanner] }

/-- `glk_gestalt(sel, val)`: the capability negotiator.  `val` is unused by
the source. -/
def glk_gestalt (sel : Int) (_val : Int) : Int :=
  if sel = 2 then 2          -- gestalt_CharOutput → gestalt_CharOutput_ExactPrint
  else if sel = 3 then 1     -- gestalt_LineInput
  else if sel = 15 then 1    -- gestalt_Unicode
  else if sel = 0x1100 then 0
  else 0

/-- `glk_put_char(ch)`: `outputBuffer += String.fromCharCode(ch)`. -/
def glk_put_char (st : GlkState) (ch : Nat) : GlkState :=
  { st with outputBuffer := st.outputBuffer ++ [ch % 65536] }

/-- `glk_put_string(text)`: `outputBuffer += text`. -/
def glk_put_string (st : GlkState) (text : List Nat) : GlkState :=
  { st with outputBuffer := st.outputBuffer ++ text }

/-- `glk_put_buffer(buf)`: appends `String.fromCharCode(buf[i])` for each
element in order. -/
def glk_put_buffer (st : GlkState) (buf : List Nat) : GlkState :=
  { st with outputBuffer := st.outputBuffer ++ buf.map (· % 65536) }

/-- `glk_put_char_uni(ch)`: `outputBuffer += String.fromCodePoint(ch)`. -/
def glk_put_char_uni (st : GlkState) (ch : Nat) : GlkState :=
  { st with outputBuffer := st.outputBuffer ++ [ch] }

/-- `glk_put_string_uni(text)`: `outputBuffer += text`. -/
def glk_put_string_uni (st : GlkState) (text : List Nat) : GlkState :=
  { st with outputBuffer := st.outputBuffer ++ text }

/-- `glk_put_buffer_uni(buf)`: appends `String.fromCodePoint(buf[i])` for each
element in order. -/
def glk_put_buffer_uni (st : GlkState) (buf : List Nat) : GlkState :=
  { st with outputBuffer := st.outputBuffer ++ buf }

/-- `glk_put_jstring(text)`: `if (text) outputBuffer += text` (an empty string
is falsy, so nothing happens — which appends nothing either way). -/
def glk_put_jstring (st : GlkState) (text : List Nat) : GlkState :=
  if text = [] then st
  else { st with outputBuffer := st.outputBuffer ++ text }

/-- JS truthiness of `str.data`: every stream's `data` is initialized to the
array `[]` and only ever replaced by another array, and a JS array is always
truthy — so the `else if (str.data)` guards are constantly satisfied. -/
def jsArrayTruthy (_l : List Nat) : Bool := true

/-- `glk_put_char_stream(str, ch)`: write to the output buffer if `str` is the
main or current stream; otherwise into the bound fixed buffer at the cursor if
one is bound (dropping the write at capacity); otherwise push onto `data`.
`write_count` is incremented in every case. -/
def glk_put_char_stream (st : GlkState) (sid : Nat) (ch : Nat) : GlkState :=
  let s := getStream st sid
  let st1 :=
    if sid = mainStreamId ∨ sid = st.currentStream then
      { st with outputBuffer := st.outputBuffer ++ [ch % 65536] }
    else if s.buf.isSome then
      match s.buf with
      | some b =>
        if s.pos < (s.buflen : Int) then
          setStream { st with heap := heapWrite st.heap b s.pos.toNat ch }
            sid { s with pos := s.pos + 1 }
        else st
      | none => st
    else if jsArrayTruthy s.data then
      setStream st sid { s with data := s.data ++ [ch] }
    else st
  let s1 := getStream st1 sid
  setStream st1 sid { s1 with write_count := s1.write_count + 1 }

/-- `glk_put_char_stream_uni(str, ch)`: delegates to `glk_put_char_stream`. -/
def glk_put_char_stream_uni (st : GlkState) (sid : Nat) (ch : Nat) : GlkState :=
  glk_put_char_stream st sid ch

/-- `glk_put_string_stream(str, text)`: to the output buffer if main/current;
otherwise the `else if (str.data)` branch (always satisfied) pushes the
char code of each character onto `data`.  There is no `str.buf` branch in this
function.  `write_count += text.length` in every case. -/
def glk_put_string_stream (st : GlkState) (sid : Nat) (text : List Nat) : GlkState :=
  let s := getStream st sid
  let st1 :=
    if sid = mainStreamId ∨ sid = st.currentStream then
      { st with outputBuffer := st.outputBuffer ++ text }
    else if jsArrayTruthy s.data then
      setStream st sid { s with data := s.data ++ text }
    else st
  let s1 := getStream st1 sid
  setStream st1 sid { s1 with write_count := s1.write_count + text.length }

/-- The loop `for (i = 0; i < buf.length && str.pos < str.buflen; i++)
str.buf[str.pos++] = buf[i];` from `glk_put_buffer_stream`. -/
def memCopyLoop (heap : List (List Nat)) (b : Nat) (pos : Int) (buflen : Nat) :
    List Nat → List (List Nat) × Int
  | [] => (heap, pos)
  | x :: xs =>
    if pos < (buflen : Int) then
      memCopyLoop (heapWrite heap b pos.toNat x) b (pos + 1) buflen xs
    else (heap, pos)

/-- `glk_put_buffer_stream(str, buf)`: to the output buffer if main/current;
otherwise the `else if (str.data)` branch (always satisfied) pushes each
element onto `data`; the subsequent `else if (str.buf)` branch that writes to
the bound fixed buffer is therefore unreachable.  `write_count += buf.length`
in every case. -/
def glk_put_buffer_stream (st : GlkState) (sid : Nat) (buf : List Nat) : GlkState :=
  let s := getStream st sid
  let st1 :=
    if sid = mainStreamId ∨ sid = st.currentStream then
      { st with outputBuffer := st.outputBuffer ++ buf.map (· % 65536) }
    else if jsArrayTruthy s.data then
      setStream st sid { s with data := s.data ++ buf }
    else
      match s.buf with
      | some b =>
        let r := memCopyLoop st.heap b s.pos s.buflen buf
        setStream { st with heap := r.1 } sid { s with pos := r.2 }
      | none => st
  let s1 := getStream st1 sid
  setStream st1 sid { s1 with write_count := s1.write_count + buf.length }

/-- `glk_put_jstring_stream(str, text)`: `if (!text) return;` then as
`glk_put_string_stream` (again no `str.buf` branch). -/
def glk_put_jstring_stream (st : GlkState) (sid : Nat) (text : List Nat) : GlkState :=
  if text = [] then st
  else glk_put_string_stream st sid text

/-- `glk_stream_set_position(str, pos, seekmode)`: sets the cursor with no
clamping (`Start` assigns, `Current` adds, `End` adds to the data length). -/
def glk_stream_set_position (st : GlkState) (sid : Nat) (pos : Int) (seekmode : Nat) :
    GlkState :=
  let s := getStream st sid
  if seekmode = 0 then setStream st sid { s with pos := pos }
  else if seekmode = 1 then setStream st sid { s with pos := s.pos + pos }
  else if seekmode = 2 then
    setStream st sid { s with pos := (s.data.length : Int) + pos }
  else st

/-- `glk_stream_get_position(str)`. -/
def glk_stream_get_position (st : GlkState) (sid : Nat) : Int :=
  (getStream st sid).pos

/-- `glk_get_char_stream(str)`: read from the bound fixed buffer if present and
the cursor is below its capacity, else from `data` if the cursor is below its
length, else return `-1`; a successful read bumps cursor and read counter. -/
def glk_get_char_stream (st : GlkState) (sid : Nat) : Int × GlkState :=
  let s := getStream st sid
  match s.buf with
  | some b =>
    if s.pos < (s.buflen : Int) then
      ((heapRead st.heap b s.pos : Int),
        setStream st sid { s with pos := s.pos + 1, read_count := s.read_count + 1 })
    else if s.pos < (s.data.length : Int) then
      ((dataRead s.data s.pos : Int),
        setStream st sid { s with pos := s.pos + 1, read_count := s.read_count + 1 })
    else (-1, st)
  | none =>
    if s.pos < (s.data.length : Int) then
      ((dataRead s.data s.pos : Int),
        setStream st sid { s with pos := s.pos + 1, read_count := s.read_count + 1 })
    else (-1, st)

/-- The loop of `glk_get_buffer_stream`: up to `n` more iterations writing at
ascending indices of target heap buffer `tgt` starting at `i`, stopping at the
`-1` sentinel; returns the count of characters stored. -/
def getBufLoop (sid tgt : Nat) : Nat → Nat → GlkState → Nat × GlkState
  | _, 0, st => (0, st)
  | i, n + 1, st =>
    let r := glk_get_char_stream st sid
    if r.1 = -1 then (0, r.2)
    else
      let st2 := { r.2 with heap := heapWrite r.2.heap tgt i r.1.toNat }
      let r2 := getBufLoop sid tgt (i + 1) n st2
      (r2.1 + 1, r2.2)

/-- `glk_get_buffer_stream(str, buf, len)`: `maxLen = len || buf.length`
(a zero/absent `len` falls back to the target's length), then the read loop. -/
def glk_get_buffer_stream (st : GlkState) (sid tgt : Nat) (len : Nat) :
    Nat × GlkState :=
  let maxLen := if len = 0 then (st.heap.getD tgt []).length else len
  getBufLoop sid tgt 0 maxLen st

/-- The loop of `glk_get_line_stream`: like `getBufLoop` but bounded by
`maxLen - 1` and additionally stopping after storing a newline (10). -/
def getLineLoop (sid tgt : Nat) : Nat → Nat → GlkState → Nat × GlkState
  | _, 0, st => (0, st)
  | i, n + 1, st =>
    let r := glk_get_char_stream st sid
    if r.1 = -1 then (0, r.2)
    else
      let st2 := { r.2 with heap := heapWrite r.2.heap tgt i r.1.toNat }
      if r.1 = 10 then (1, st2)
      else
        let r2 := getLineLoop sid tgt (i + 1) n st2
        (r2.1 + 1, r2.2)

/-- `glk_get_line_stream(str, buf, len)`. -/
def glk_get_line_stream (st : GlkState) (sid tgt : Nat) (len : Nat) :
    Nat × GlkState :=
  let maxLen := if len = 0 then (st.heap.getD tgt []).length else len
  getLineLoop sid tgt 0 (maxLen - 1) st

/-- `glk_stream_open_memory(buf, buflen, fmode, rock)`: a fresh stream bound
to the VM buffer `bufid` with capacity `buflen`; returns the new stream's
index. -/
def glk_stream_open_memory (st : GlkState) (bufid : Nat) (buflen : Nat)
    (fmode : Nat) (rock : Int) : GlkState × Nat :=
  let s := { freshStream rock with buf := some bufid, buflen := buflen
                                   fmode := some fmode }
  ({ st with streams := st.streams ++ [s] }, st.streams.length)

/-- `localStorage.getItem(key)`: `null` (here `none`) when the key is absent. -/
def storeGet (store : List (String × String)) (key : String) : Option String :=
  match store.find? (fun p => p.1 = key) with
  | some p => some p.2
  | none => none

/-- `localStorage.setItem(key, value)`: replaces any previous value. -/
def storeSet (store : List (String × String)) (key value : String) :
    List (String × String) :=
  (key, value) :: store.filter (fun p => ¬p.1 = key)

/-- Decimal digit character (the characters JSON number serialization uses). -/
def digitChar (d : Nat) : Char :=
  if d = 0 then '0' else if d = 1 then '1' else if d = 2 then '2'
  else if d = 3 then '3' else if d = 4 then '4' else if d = 5 then '5'
  else if d = 6 then '6' else if d = 7 then '7' else if d = 8 then '8' else '9'

/-- Decimal text of a natural number (most significant digit first, no leading
zeros), as produced by `JSON.stringify` for the numbers the adapter stores. -/
def natChars (n : Nat) : List Char :=
  if n = 0 then ['0'] else (Nat.digits 10 n).reverse.map digitChar

/-- `JSON.stringify` on an array of (non-negative integral) numbers:
`[n1,n2,...]` with no whitespace. -/
def jsonStringify (d : List Nat) : String :=
  ⟨'[' :: List.intercalate [','] (d.map natChars) ++ [']']⟩

/-- Digit test for the parser. -/
def isDigitCh (c : Char) : Bool :=
  decide (48 ≤ c.toNat) && decide (c.toNat ≤ 57)

/-- Numeric value of a digit character. -/
def digitVal (c : Char) : Nat :=
  c.toNat - 48

/-- Decimal value of a digit string (most significant digit first). -/
def digitsVal (ds : List Char) : Nat :=
  ds.foldl (fun a c => 10 * a + digitVal c) 0

/-- JSON insignificant whitespace: space, tab, line feed, carriage return. -/
def jsWS (c : Char) : Bool :=
  decide (c = ' ') || decide (c = '\t') || decide (c = '\n') || decide (c = '\r')

/-- Skip insignificant whitespace. -/
def skipWS (cs : List Char) : List Char :=
  cs.dropWhile jsWS

/-- Hexadecimal digit (for `\uXXXX` string escapes). -/
def isHexCh (c : Char) : Bool :=
  isDigitCh c || (decide (97 ≤ c.toNat) && decide (c.toNat ≤ 102))
    || (decide (65 ≤ c.toNat) && decide (c.toNat ≤ 70))

/-- JSON string literal body after the opening quote: consume characters and
escapes up to the closing quote and return the remainder; `none` when the
literal is malformed (bad escape, unescaped control character, missing
closing quote).  `fuel` only bounds the recursion; one unit per consumed
character suffices, and callers pass the input length plus one. -/
def parseStringBody : Nat → List Char → Option (List Char)
  | 0, _ => none
  | _ + 1, [] => none
  | fuel + 1, c :: t =>
    if c = '"' then some t
    else if c = '\\' then
      match t with
      | e :: t2 =>
        if e = '"' ∨ e = '\\' ∨ e = '/' ∨ e = 'b' ∨ e = 'f' ∨ e = 'n'
            ∨ e = 'r' ∨ e = 't' then parseStringBody fuel t2
        else if e = 'u' then
          if (t2.take 4).length = 4 ∧ (t2.take 4).all isHexCh then
            parseStringBody fuel (t2.drop 4)
          else none
        else none
      | [] => none
    else if 32 ≤ c.toNat then parseStringBody fuel t
    else none

/-- JSON number fraction part: `.` followed by one or more digits, or absent.
Returns whether a fraction was present and the remainder; `none` on a dot
with no digits. -/
def parseFrac (cs : List Char) : Option (Bool × List Char) :=
  if cs.head? = some '.' then
    if (cs.drop 1).takeWhile isDigitCh = [] then none
    else some (true, (cs.drop 1).dropWhile isDigitCh)
  else some (false, cs)

/-- JSON number exponent part: `e`/`E`, an optional sign, one or more digits,
or absent. -/
def parseExp (cs : List Char) : Option (Bool × List Char) :=
  if cs.head? = some 'e' ∨ cs.head? = some 'E' then
    let t := cs.drop 1
    let t2 := if t.head? = some '+' ∨ t.head? = some '-' then t.drop 1 else t
    if t2.takeWhile isDigitCh = [] then none
    else some (true, t2.dropWhile isDigitCh)
  else some (false, cs)

/-- An unsigned JSON number token: integer part (`0`, or a nonzero digit
followed by digits), optional fraction, optional exponent.  `none` when
malformed.  The result carries `some n` exactly when the token is a plain
digit string (no leading zero, fraction, exponent or sign) of value
`n < 2^53` — precisely the tokens whose JavaScript number value is the
integer literally written (every integer below `2^53` is exactly
representable as a JS float, and `JSON.stringify` prints it back as these
digits). -/
def parseUNumber : List Char → Option (Option Nat × List Char)
  | [] => none
  | c :: t =>
    if isDigitCh c then
      if c = '0' then
        match parseFrac t with
        | some (hasFrac, rest1) =>
          match parseExp rest1 with
          | some (hasExp, rest2) =>
            if hasFrac = false ∧ hasExp = false then some (some 0, rest2)
            else some (none, rest2)
          | none => none
        | none => none
      else
        match parseFrac (t.dropWhile isDigitCh) with
        | some (hasFrac, rest1) =>
          match parseExp rest1 with
          | some (hasExp, rest2) =>
            if hasFrac = false ∧ hasExp = false
                ∧ digitsVal (c :: t.takeWhile isDigitCh) < 2 ^ 53 then
              some (some (digitsVal (c :: t.takeWhile isDigitCh)), rest2)
            else some (none, rest2)
          | none => none
        | none => none
    else none

/-- The shape of a successfully parsed JSON value, as far as the adapter's
save/restore can observe it: an array all of whose elements are plain
unsigned small-integer tokens (its exact value), or any other JSON value. -/
inductive JV where
  | natArr (l : List Nat)
  | misc
deriving DecidableEq, Repr

/-- Mode for the single fuel-indexed JSON recognizer: a value; the elements
of an array, after its opening bracket; or the members of an object, after
its opening brace. -/
inductive PMode where
  | value
  | elems
  | members
deriving DecidableEq, Repr

/-- Result of one recognizer run, by mode. -/
inductive POut where
  | v (jv : JV)
  | es (acc : Option (List Nat))
  | ms
deriving DecidableEq, Repr

/-- A single exactly-tracked array element: the singleton accumulator when
the element was a plain small-integer token, else the untracked marker. -/
def oneAcc (v : Option Nat) : Option (List Nat) :=
  match v with
  | some n => some [n]
  | none => none

/-- Prepend an exactly-tracked element to an exactly-tracked tail; exactness
is lost when either side lost it. -/
def consAcc (v : Option Nat) (acc : Option (List Nat)) : Option (List Nat) :=
  match v, acc with
  | some n, some l => some (n :: l)
  | _, _ => none

/-- The JSON grammar as implemented by `JSON.parse` (ECMA-404): values are
objects, arrays, strings, numbers, `true`, `false`, `null`, with
insignificant whitespace around every value.  In `elems` mode the
accumulator stays `some l` exactly while every element so far is a plain
unsigned small-integer token (see `parseUNumber`), so a fully-`some` run
identifies the arrays whose JavaScript value is exactly the written list of
non-negative integers.  `fuel` only bounds the recursion depth: every two
consecutive recursive calls consume at least one input character, so
`2 * length + 2` always suffices. -/
def parseRun : Nat → PMode → List Char → Option (POut × List Char)
  | 0, _, _ => none
  | fuel + 1, .value, cs =>
    match cs with
    | [] => none
    | c :: t =>
      if c = '"' then
        match parseStringBody (t.length + 1) t with
        | some rest => some (.v .misc, rest)
        | none => none
      else if c = '[' then
        if (skipWS t).head? = some ']' then
          some (.v (.natArr []), (skipWS t).drop 1)
        else
          match parseRun fuel .elems t with
          | some (.es (some l), rest) => some (.v (.natArr l), rest)
          | some (.es none, rest) => some (.v .misc, rest)
          | _ => none
      else if c = '{' then
        if (skipWS t).head? = some '}' then some (.v .misc, (skipWS t).drop 1)
        else
          match parseRun fuel .members t with
          | some (.ms, rest) => some (.v .misc, rest)
          | _ => none
      else if c = 't' then
        if t.take 3 = ['r', 'u', 'e'] then some (.v .misc, t.drop 3) else none
      else if c = 'f' then
        if t.take 4 = ['a', 'l', 's', 'e'] then some (.v .misc, t.drop 4) else none
      else if c = 'n' then
        if t.take 3 = ['u', 'l', 'l'] then some (.v .misc, t.drop 3) else none
      else if c = '-' then
        match parseUNumber t with
        | some (_, rest) => some (.v .misc, rest)
        | none => none
      else if isDigitCh c then
        match parseUNumber (c :: t) with
        | some (_, rest) => some (.v .misc, rest)
        | none => none
      else none
  | fuel + 1, .elems, cs =>
    match
      (match (skipWS cs).head? with
       | some c =>
         if isDigitCh c then parseUNumber (skipWS cs)
         else
           match parseRun fuel .value (skipWS cs) with
           | some (.v _, rest) => some ((none : Option Nat), rest)
           | _ => none
       | none => none) with
    | some (v, rest) =>
      if (skipWS rest).head? = some ']' then
        some (.es (oneAcc v), (skipWS rest).drop 1)
      else if (skipWS rest).head? = some ',' then
        match parseRun fuel .elems ((skipWS rest).drop 1) with
        | some (.es acc, rest2) => some (.es (consAcc v acc), rest2)
        | _ => none
      else none
    | none => none
  | fuel + 1, .members, cs =>
    match skipWS cs with
    | c :: t =>
      if c = '"' then
        match parseStringBody (t.length + 1) t with
        | some rest =>
          if (skipWS rest).head? = some ':' then
            match parseRun fuel .value (skipWS ((skipWS rest).drop 1)) with
            | some (.v _, rest2) =>
              if (skipWS rest2).head? = some '}' then
                some (.ms, (skipWS rest2).drop 1)
              else if (skipWS rest2).head? = some ',' then
                parseRun fuel .members ((skipWS rest2).drop 1)
              else none
            | _ => none
          else none
        | none => none
      else none
    | [] => none

/-- Classification of `JSON.parse(s)`: `arr l` — the parse succeeds and its
value is exactly the array of non-negative integers `l` (every element a
plain small-integer token); `other` — the parse succeeds with a value this
model does not track (any other JSON value; the adapter's own serialization
never produces such a text); `err` — the parse throws.  `arr` and `err` are
the sound classifications the theorems rely on: an `arr l` text really
evaluates to `l`, and an `err` text really throws. -/
inductive JsParse where
  | arr (l : List Nat)
  | other
  | err
deriving DecidableEq, Repr

/-- `JSON.parse`: optional whitespace, one JSON value, optional whitespace,
end of input. -/
def jsonParse (s : String) : JsParse :=
  match parseRun (2 * s.data.length + 2) .value (skipWS s.data) with
  | some (.v jv, rest) =>
    if skipWS rest = [] then
      match jv with
      | .natArr l => .arr l
      | .misc => .other
    else .err
  | _ => .err

/-- `glk_stream_open_file(fref, fmode, rock)`: a fresh stream bound to the
fileref's filename; in read or read-write mode, a non-empty stored value is
parsed into `data`: a plain non-negative-integer array is loaded verbatim,
and a text on which the parse throws yields `[]` (the `catch` branch).  A
text parsing to any other JSON value would put a non-array (or non-integer)
value into `str.data`, which is outside this model's state space; it is
mapped to `[]` here, and no theorem below constrains that case — the adapter
itself only ever stores serialized integer arrays.  Returns the new stream's
index. -/
def glk_stream_open_file (st : GlkState) (filename : String) (fmode : Nat)
    (rock : Int) : GlkState × Nat :=
  let s0 := { freshStream rock with fref := some filename, fmode := some fmode }
  let s :=
    if fmode = 2 ∨ fmode = 3 then
      match storeGet st.store filename with
      | some saved =>
        if saved ≠ "" then
          match jsonParse saved with
          | .arr d => { s0 with data := d }
          | .other => { s0 with data := [] }
          | .err => { s0 with data := [] }
        else s0
      | none => s0
    else s0
  ({ st with streams := st.streams ++ [s] }, st.streams.length)

/-- `glk_stream_close(str, result)`: report final counters through the result
structure if given; if the stream is bound to a fileref and was opened for
writing, serialize `data` into the store under the filename. -/
def glk_stream_close (st : GlkState) (sid : Nat) (result : Option RefStruct) :
    GlkState × Option RefStruct :=
  let s := getStream st sid
  let result1 := result.map (fun r =>
    (r.set_field 0 (.num s.read_count)).set_field 1 (.num s.write_count))
  let st1 :=
    match s.fref with
    | some f =>
      if s.fmode = some 1 ∨ s.fmode = some 3 then
        { st with store := storeSet st.store f (jsonStringify s.data) }
      else st
    | none => st
  (st1, result1)

/-- `glk_fileref_does_file_exist(fref)`. -/
def glk_fileref_does_file_exist (st : GlkState) (filename : String) : Nat :=
  if (storeGet st.store filename).isSome then 1 else 0

/-- `_request_line(win, buf, initlen)`: flush the output buffer, record the
request in `inputState` (`maxlen` is the buffer's length, 0 when no buffer),
mark the window, and register the one-shot callback with the terminal
(`terminal.waitForInput`, which overwrites any previously stored resolver). -/
def _request_line (st : GlkState) (wid : Option Nat) (bufid : Option Nat)
    (_initlen : Nat) : GlkState :=
  let st1 := flushOutput st
  let maxlen := match bufid with
    | some b => (st1.heap.getD b []).length
    | none => 0
  let st2 := { st1 with inputBuffer := bufid, inputMaxLen := maxlen
                        inputPending := true }
  let st3 :=
    match wid with
    | some w =>
      setWindow st2 w { getWindow st2 w with input_request_type := some .line
                                             line_input_buf := bufid }
    | none => st2
  { st3 with resolver := true }

/-- `glk_request_line_event(win, buf, initlen)`: delegates. -/
def glk_request_line_event (st : GlkState) (wid : Option Nat) (bufid : Option Nat)
    (initlen : Nat) : GlkState :=
  _request_line st wid bufid initlen

/-- `glk_request_char_event(win)`: flush the output buffer and mark the
window's pending input kind. -/
def glk_request_char_event (st : GlkState) (wid : Option Nat) : GlkState :=
  let st1 := flushOutput st
  match wid with
  | some w =>
    setWindow st1 w { getWindow st1 w with input_request_type := some .char }
  | none => st1

/-- Overwrite the prefix of `target` with `src` element by element
(`buffer[i] = src[i]`), dropping writes past the end of `target` (typed-array
semantics); the target's length never changes. -/
def overwritePrefix : List Nat → List Nat → List Nat
  | target, [] => target
  | [], _ => []
  | _ :: target, x :: src => x :: overwritePrefix target src

/-- The body of the callback `_request_line` registers with
`terminal.waitForInput`, fired by the terminal with the submitted line
(character codes `input`): if a request is still pending and has a buffer,
copy `min(input.length, maxLen)` character codes into the registered buffer in
order, then write that length into field 2 of the captured event (if one was
captured), then clear the pending flag.  The closure reads `inputState` at
fire time, so this is a function of the current adapter state. -/
def deliverInput (st : GlkState) (input : List Nat) : GlkState :=
  if st.inputPending ∧ st.inputBuffer.isSome then
    match st.inputBuffer with
    | some b =>
      let len := min input.length st.inputMaxLen
      let entry := overwritePrefix (st.heap.getD b []) (input.take len)
      let st1 := { st with heap := st.heap.set b entry }
      let st2 :=
        match st1.inputEvent with
        | some e => { st1 with inputEvent := some (e.set_field 2 (.num len)) }
        | none => st1
      { st2 with inputPending := false }
    | none => st
  else st

/-- The atomic mutations the callback body performs, in program order:
element writes into the registered buffer, the event-length write, and the
clearing of the pending flag. -/
inductive CbAct where
  | bufWrite (i : Nat) (c : Nat)
  | evLenWrite (n : Nat)
  | clearPending
deriving DecidableEq, Repr

/-- The sequence of atomic mutations the callback performs on state `st` for
input `input`, in the order the source executes them: all buffer writes
(ascending indices), then the event-length write (when an event was
captured), then the pending-flag clear. -/
def deliverInputActs (st : GlkState) (input : List Nat) : List CbAct :=
  if st.inputPending ∧ st.inputBuffer.isSome then
    let len := min input.length st.inputMaxLen
    ((List.range len).map fun i => CbAct.bufWrite i (input.getD i 0)) ++
      (if st.inputEvent.isSome then [CbAct.evLenWrite len] else []) ++
      [CbAct.clearPending]
  else []

/-- Apply one atomic callback mutation to the state. -/
def applyAct (st : GlkState) : CbAct → GlkState
  | .bufWrite i c =>
    match st.inputBuffer with
    | some b => { st with heap := heapWrite st.heap b i c }
    | none => st
  | .evLenWrite n =>
    match st.inputEvent with
    | some e => { st with inputEvent := some (e.set_field 2 (.num n)) }
    | none => st
  | .clearPending => { st with inputPending := false }

/-- `glk_cancel_line_event(win, event)`: clear the window's pending-input kind
and buffer reference, and report kind 0 through the supplied event structure;
`inputState` is not touched. -/
def glk_cancel_line_event (st : GlkState) (wid : Option Nat)
    (event : Option RefStruct) : GlkState × Option RefStruct :=
  let st1 :=
    match wid with
    | some w =>
      setWindow st w { getWindow st w with input_request_type := none
                                           line_input_buf := none }
    | none => st
  (st1, event.map (fun e => e.set_field 0 (.num 0)))

/-- `glk_cancel_char_event(win)`. -/
def glk_cancel_char_event (st : GlkState) (wid : Option Nat) : GlkState :=
  match wid with
  | some w =>
    setWindow st w { getWindow st w with input_request_type := none }
  | none => st

/-- `glk_select(event)`: store the event reference in `inputState.event`, then
write the synthetic line-input event into it: kind 3 (`evtype_LineInput`), the
main window, length 0 (patched later by the input callback), terminator 0.
The stored reference and the structure handed back to the VM are the same
object, so both reflect the four writes. -/
def glk_select (st : GlkState) (event : RefStruct) : GlkState × RefStruct :=
  let e := (((event.set_field 0 (.num 3)).set_field 1 (.win mainWindowId)).set_field 2
    (.num 0)).set_field 3 (.num 0)
  ({ st with inputEvent := some e }, e)

/-- `glk_select_poll(event)`: write kind 0 (`evtype_None`) unconditionally;
the function reads no adapter state, which the signature makes explicit. -/
def glk_select_poll (event : RefStruct) : RefStruct :=
  event.set_field 0 (.num 0)

/-- The operations quantified over by the output-buffer property: every write
form that targets the currently selected stream (the direct forms, their
unicode and jstring variants, and the stream forms called on the main or the
current stream) together with the flush checkpoints. -/
inductive COp where
  | putChar (ch : Nat)
  | putString (t : List Nat)
  | putBuffer (b : List Nat)
  | putCharUni (ch : Nat)
  | putStringUni (t : List Nat)
  | putBufferUni (b : List Nat)
  | putJString (t : List Nat)
  | putCharStream (toMain : Bool) (ch : Nat)
  | putStringStream (toMain : Bool) (t : List Nat)
  | putBufferStream (toMain : Bool) (b : List Nat)
  | putJStringStream (toMain : Bool) (t : List Nat)
  | putCharStreamUni (toMain : Bool) (ch : Nat)
  | updateOp
  | requestLine (wid : Option Nat) (bufid : Option Nat) (initlen : Nat)
  | requestChar (wid : Option Nat)
  | exitOp
deriving DecidableEq, Repr

/-- Dispatch one operation to its embedded adapter function; the stream forms
are called on the main stream or on the currently selected stream. -/
def runOp (st : GlkState) : COp → GlkState
  | .putChar ch => glk_put_char st ch
  | .putString t => glk_put_string st t
  | .putBuffer b => glk_put_buffer st b
  | .putCharUni ch => glk_put_char_uni st ch
  | .putStringUni t => glk_put_string_uni st t
  | .putBufferUni b => glk_put_buffer_uni st b
  | .putJString t => glk_put_jstring st t
  | .putCharStream toMain ch =>
    glk_put_char_stream st (if toMain then mainStreamId else st.currentStream) ch
  | .putStringStream toMain t =>
    glk_put_string_stream st (if toMain then mainStreamId else st.currentStream) t
  | .putBufferStream toMain b =>
    glk_put_buffer_stream st (if toMain then mainStreamId else st.currentStream) b
  | .putJStringStream toMain t =>
    glk_put_jstring_stream st (if toMain then mainStreamId else st.currentStream) t
  | .putCharStreamUni toMain ch =>
    glk_put_char_stream_uni st (if toMain then mainStreamId else st.currentStream) ch
  | .updateOp => update st
  | .requestLine wid bufid initlen => _request_line st wid bufid initlen
  | .requestChar wid => glk_request_char_event st wid
  | .exitOp => glk_exit st

/-- Run a sequence of operations left to right. -/
def runOps (ops : List COp) (st : GlkState) : GlkState :=
  ops.foldl runOp st

/-- The text an operation contributes to the terminal, in write order: the
code units a write appends to the output buffer; nothing for the pure flush
checkpoints; the fixed banner for `glk_exit`. -/
def writtenOut : COp → List Nat
  | .putChar ch => [ch % 65536]
  | .putString t => t
  | .putBuffer b => b.map (· % 65536)
  | .putCharUni ch => [ch]
  | .putStringUni t => t
  | .putBufferUni b => b
  | .putJString t => t
  | .putCharStream _ ch => [ch % 65536]
  | .putStringStream _ t => t
  | .putBufferStream _ b => b.map (· % 65536)
  | .putJStringStream _ t => t
  | .putCharStreamUni _ ch => [ch % 65536]
  | .updateOp => []
  | .requestLine _ _ _ => []
  | .requestChar _ => []
  | .exitOp => exitBanner

/-- The flush checkpoints among the operations. -/
def isFlush : COp → Bool
  | .updateOp => true
  | .requestLine _ _ _ => true
  | .requestChar _ => true
  | .exitOp => true
  | _ => false

/-- Everything the terminal's `print` has received, concatenated in call
order. -/
def joinPrinted (st : GlkState) : List Nat :=
  st.printed.flatten

/-- The cursor-bounds predicate of the claimed invariant: within
`[0, capacity]` for fixed-buffer streams and `[0, data length]` for
sequence-backed streams. -/
def cursorInBounds (st : GlkState) (sid : Nat) : Prop :=
  let s := getStream st sid
  0 ≤ s.pos ∧
    s.pos ≤ (if s.buf.isSome then (s.buflen : Int) else (s.data.length : Int))

instance (st : GlkState) (sid : Nat) : Decidable (cursorInBounds st sid) := by
  unfold cursorInBounds
  infer_instance

/-- The effect `str.pos++; str.read_count++` of a successful read on the
stream object, used to state the read specification. -/
def advanceRead (s : GStream) : GStream :=
  { s with pos := s.pos + 1, read_count := s.read_count + 1 }

/-- The cursor bound the read/write operations actually preserve:
`[0, max capacity (data length)]`.  For a sequence-backed stream
`buflen = 0`, so this is `[0, data length]`; for a fixed-buffer stream whose
internal `data` sequence is empty (the state memory streams are opened in) it
is `[0, capacity]`. -/
def cursorBound (st : GlkState) (sid : Nat) : Prop :=
  0 ≤ (getStream st sid).pos ∧
    (getStream st sid).pos
      ≤ ((max (getStream st sid).buflen (getStream st sid).data.length : Nat) : Int)

instance (st : GlkState) (sid : Nat) : Decidable (cursorBound st sid) := by
  unfold cursorBound
  infer_instance

/-- The effect `str.write_count++` (resp. `+= n`) of a write on the stream
object, used to state the write specifications. -/
def bumpWrite (s : GStream) (n : Nat) : GStream :=
  { s with write_count := s.write_count + n }

/-! ## Helper lemmas -/

lemma getD_set_same {α : Type} (l : List α) (i : Nat) (v d : α) (h : i < l.length) :
    (l.set i v).getD i d = v := by
  simp [List.getD, List.getElem?_set_self, h]

lemma getD_set_other {α : Type} (l : List α) (i j : Nat) (v d : α) (h : i ≠ j) :
    (l.set i v).getD j d = l.getD j d := by
  simp [List.getD, List.getElem?_set_ne h]

lemma set_getD_self {α : Type} : ∀ (l : List α) (i : Nat) (d : α), i < l.length →
    l.set i (l.getD i d) = l
  | [], i, d, h => by simp at h
  | a :: l, 0, d, _ => by simp [List.getD]
  | a :: l, i + 1, d, h => by
    simp only [List.set, List.getD, List.getElem?_cons_succ]
    have := set_getD_self l i d (by simpa using h)
    simpa [List.getD] using this

lemma getD_append_len {α : Type} : ∀ (l : List α) (a d : α), (l ++ [a]).getD l.length d = a
  | [], a, d => rfl
  | x :: l, a, d => by
    have h := getD_append_len l a d
    simp only [List.cons_append, List.length_cons, List.getD_cons_succ]
    exact h

lemma overwritePrefix_length : ∀ (l xs : List Nat),
    (overwritePrefix l xs).length = l.length
  | l, [] => by cases l <;> rfl
  | [], _ :: _ => rfl
  | _ :: l, x :: xs => by simp [overwritePrefix, overwritePrefix_length l xs]

lemma overwritePrefix_eq_append : ∀ (l xs : List Nat), xs.length ≤ l.length →
    overwritePrefix l xs = xs ++ l.drop xs.length
  | l, [], _ => by cases l <;> rfl
  | [], x :: xs, h => by simp at h
  | a :: l, x :: xs, h => by
    simp only [overwritePrefix, List.cons_append, List.drop_succ_cons]
    exact congrArg (x :: ·) (overwritePrefix_eq_append l xs (by simpa using h))

lemma overwritePrefix_set (xs : List Nat) : ∀ (l : List Nat) (y : Nat),
    (overwritePrefix l xs).set xs.length y = overwritePrefix l (xs ++ [y]) := by
  induction xs with
  | nil =>
    intro l y
    cases l <;> simp [overwritePrefix]
  | cons x xs ih =>
    intro l y
    cases l with
    | nil => simp [overwritePrefix]
    | cons a l => simp [overwritePrefix, ih]

/-! ## C8 — capability negotiator -/

/-- C8: `glk_gestalt` is a pure total function of its selector: for any value
argument, the character-output selector (2) answers 2 (exact echo), the
line-input selector (3) answers 1, the Unicode selector (15) answers 1, and
every other selector answers 0. -/
theorem gestalt_fixed_answers (val : Int) :
    glk_gestalt 2 val = 2 ∧ glk_gestalt 3 val = 1 ∧ glk_gestalt 15 val = 1 ∧
    ∀ sel : Int, sel ≠ 2 → sel ≠ 3 → sel ≠ 15 → glk_gestalt sel val = 0 := by
  refine ⟨rfl, rfl, rfl, ?_⟩
  intro sel h2 h3 h15
  simp only [glk_gestalt, if_neg h2, if_neg h3, if_neg h15]
  split <;> rfl

theorem gestalt_fixed_answers_witness :
    glk_gestalt 2 0 = 2 ∧ glk_gestalt 99 0 = 0 :=
  ⟨(gestalt_fixed_answers 0).1,
   (gestalt_fixed_answers 0).2.2.2 99 (by decide) (by decide) (by decide)⟩

/-! ## C9 — select and select_poll -/

/-- C9: `glk_select(e)` captures `e` (the very structure it hands back) for
later population and immediately writes the synthetic event into it:
kind 3 = line input, window = main window, length 0, terminator 0; and
`glk_select_poll` — a function of the event structure alone, reading no
adapter state — writes kind 0 = no event and touches nothing else. -/
theorem select_publishes_synthetic_event (st : GlkState) (e : RefStruct)
    (h : 4 ≤ e.fields.length) :
    ((glk_select st e).1.inputEvent = some (glk_select st e).2 ∧
      (glk_select st e).2.get_field 0 = .num 3 ∧
      (glk_select st e).2.get_field 1 = .win mainWindowId ∧
      (glk_select st e).2.get_field 2 = .num 0 ∧
      (glk_select st e).2.get_field 3 = .num 0) ∧
    ∀ e2 : RefStruct, 1 ≤ e2.fields.length →
      (glk_select_poll e2).get_field 0 = .num 0 ∧
      ∀ i : Nat, i ≠ 0 → (glk_select_poll e2).get_field i = e2.get_field i := by
  constructor
  · obtain ⟨fs⟩ := e
    simp only [RefStruct.fields] at h
    match fs, h with
    | a :: b :: c :: d :: rest, _ =>
      refine ⟨rfl, ?_, ?_, ?_, ?_⟩ <;> rfl
  · intro e2 h1
    obtain ⟨fs⟩ := e2
    simp only [RefStruct.fields] at h1
    match fs, h1 with
    | a :: rest, _ =>
      refine ⟨rfl, ?_⟩
      intro i hi
      simp only [glk_select_poll, RefStruct.set_field, RefStruct.get_field]
      exact getD_set_other _ _ _ _ _ (fun hh => hi hh.symm)

theorem select_publishes_synthetic_event_witness :
    ((glk_select (initState [] []) RefStruct.new).1.inputEvent
        = some (glk_select (initState [] []) RefStruct.new).2 ∧
      (glk_select (initState [] []) RefStruct.new).2.get_field 0 = .num 3 ∧
      (glk_select (initState [] []) RefStruct.new).2.get_field 1 = .win mainWindowId ∧
      (glk_select (initState [] []) RefStruct.new).2.get_field 2 = .num 0 ∧
      (glk_select (initState [] []) RefStruct.new).2.get_field 3 = .num 0) ∧
    ∀ e2 : RefStruct, 1 ≤ e2.fields.length →
      (glk_select_poll e2).get_field 0 = .num 0 ∧
      ∀ i : Nat, i ≠ 0 → (glk_select_poll e2).get_field i = e2.get_field i :=
  select_publishes_synthetic_event (initState [] []) RefStruct.new (by decide)

/-! ## C4 — memory-backed stream writes -/

/-- C4: evaluation of the embedded code at the failing input.  On a
memory-backed stream (bound buffer `[0,0]` of capacity 2, not main/current),
`glk_put_string_stream` and `glk_put_buffer_stream` append the written unit to
the stream's internal `data` sequence and leave the bound fixed buffer
untouched — the always-truthy `str.data` array shadows the `str.buf` branch —
while `glk_put_char_stream` alone stores into the bound buffer as the claim
describes. -/
theorem memory_stream_write_targets_data :
    (getStream (glk_put_string_stream
        (glk_stream_open_memory (initState [[0, 0]] []) 0 2 1 0).1 1 [65]) 1).data
      = [65] ∧
    (glk_put_string_stream
        (glk_stream_open_memory (initState [[0, 0]] []) 0 2 1 0).1 1 [65]).heap
      = [[0, 0]] ∧
    (getStream (glk_put_buffer_stream
        (glk_stream_open_memory (initState [[0, 0]] []) 0 2 1 0).1 1 [66]) 1).data
      = [66] ∧
    (glk_put_buffer_stream
        (glk_stream_open_memory (initState [[0, 0]] []) 0 2 1 0).1 1 [66]).heap
      = [[0, 0]] ∧
    (glk_put_char_stream
        (glk_stream_open_memory (initState [[0, 0]] []) 0 2 1 0).1 1 65).heap
      = [[65, 0]] ∧
    (getStream (glk_put_char_stream
        (glk_stream_open_memory (initState [[0, 0]] []) 0 2 1 0).1 1 65) 1).data
      = [] := by
  refine ⟨rfl, rfl, rfl, rfl, rfl, rfl⟩

/-! ## C5 — cursor bounds -/

/-- C5 counterexample: `glk_stream_set_position` does no clamping, so a
start-mode seek to offset 5 on the fresh (empty, sequence-backed) main stream
leaves the cursor at 5, outside `[0, length] = [0, 0]`. -/
theorem cursor_bounds_cex :
    ¬ cursorInBounds (glk_stream_set_position (initState [] []) 0 5 0) 0 := by
  decide

/-! ## C7 — reads past end -/

/-- C7 counterexample: a read on the fresh empty main stream is a read
operation that does not increment the read counter (it returns the -1
sentinel and leaves the stream untouched), refuting "every read operation
advances the cursor and increments the read counter". -/
theorem read_past_end_cex :
    ¬ ((getStream (glk_get_char_stream (initState [] []) 0).2 0).read_count
        = (getStream (initState [] []) 0).read_count + 1) := by
  decide

/-! ## C1 — output buffering -/

/-- C1 counterexample: after the write `glk_put_char(65)` followed by the
flush checkpoint `glk_exit`, the terminal has received the session-ended
banner in addition to the written text, so `print` did not receive exactly
the concatenation `[65]` of the written text. -/
theorem output_exact_concat_cex :
    joinPrinted (runOps [COp.putChar 65, COp.exitOp] (initState [] [])) ≠ [65] := by
  decide

/-! ## Input bridge lemmas (shared by C2, C3, C10) -/

lemma overwritePrefix_nil (l : List Nat) : overwritePrefix l [] = l := by
  cases l <;> rfl

lemma flushOutput_heap (st : GlkState) : (flushOutput st).heap = st.heap := by
  unfold flushOutput
  split <;> rfl

lemma flushOutput_inputEvent (st : GlkState) :
    (flushOutput st).inputEvent = st.inputEvent := by
  unfold flushOutput
  split <;> rfl

lemma request_line_heap (st : GlkState) (w : Option Nat) (bufid : Option Nat)
    (n : Nat) : (_request_line st w bufid n).heap = st.heap := by
  unfold _request_line
  cases w <;> simp [setWindow, flushOutput_heap]

lemma request_line_inputBuffer (st : GlkState) (w : Option Nat)
    (bufid : Option Nat) (n : Nat) :
    (_request_line st w bufid n).inputBuffer = bufid := by
  unfold _request_line
  cases w <;> simp [setWindow]

lemma request_line_inputMaxLen (st : GlkState) (w : Option Nat) (b : Nat)
    (n : Nat) :
    (_request_line st w (some b) n).inputMaxLen = (st.heap.getD b []).length := by
  unfold _request_line
  cases w <;> simp [setWindow, flushOutput_heap]

lemma request_line_pending (st : GlkState) (w : Option Nat) (bufid : Option Nat)
    (n : Nat) : (_request_line st w bufid n).inputPending = true := by
  unfold _request_line
  cases w <;> simp [setWindow]

lemma request_line_inputEvent (st : GlkState) (w : Option Nat)
    (bufid : Option Nat) (n : Nat) :
    (_request_line st w bufid n).inputEvent = st.inputEvent := by
  unfold _request_line
  cases w <;> simp [setWindow, flushOutput_inputEvent]

lemma request_line_resolver (st : GlkState) (w : Option Nat) (bufid : Option Nat)
    (n : Nat) : (_request_line st w bufid n).resolver = true := by
  unfold _request_line
  cases w <;> simp [setWindow]

lemma deliverInput_heap_self (st : GlkState) (input : List Nat) (b : Nat)
    (hp : st.inputPending = true) (hb : st.inputBuffer = some b)
    (hlt : b < st.heap.length) :
    (deliverInput st input).heap.getD b []
      = overwritePrefix (st.heap.getD b [])
          (input.take (min input.length st.inputMaxLen)) := by
  unfold deliverInput
  rw [if_pos ⟨by rw [hp], by rw [hb]; rfl⟩, hb]
  cases st.inputEvent <;> simp [List.getD, List.getElem?_set_self, hlt]

lemma deliverInput_heap_other (st : GlkState) (input : List Nat) (b b' : Nat)
    (hb : st.inputBuffer = some b) (hne : b ≠ b') :
    (deliverInput st input).heap.getD b' [] = st.heap.getD b' [] := by
  unfold deliverInput
  by_cases hcond : (st.inputPending : Prop) ∧ st.inputBuffer.isSome
  · rw [if_pos hcond, hb]
    cases st.inputEvent <;> simp [List.getD, List.getElem?_set_ne hne]
  · rw [if_neg hcond]

lemma deliverInput_delivers (st : GlkState) (input : List Nat) (b : Nat)
    (e : RefStruct) (hp : st.inputPending = true) (hb : st.inputBuffer = some b)
    (hlt : b < st.heap.length) (he : st.inputEvent = some e)
    (hlen : input.length ≤ st.inputMaxLen) :
    (deliverInput st input).heap.getD b []
        = overwritePrefix (st.heap.getD b []) input ∧
    (deliverInput st input).inputEvent
        = some (e.set_field 2 (.num input.length)) ∧
    (deliverInput st input).inputPending = false := by
  have hmin : min input.length st.inputMaxLen = input.length :=
    Nat.min_eq_left hlen
  refine ⟨?_, ?_, ?_⟩
  · rw [deliverInput_heap_self st input b hp hb hlt, hmin, List.take_length]
  · unfold deliverInput
    rw [if_pos ⟨by rw [hp], by rw [hb]; rfl⟩, hb, he]
    simp [hmin]
  · unfold deliverInput
    rw [if_pos ⟨by rw [hp], by rw [hb]; rfl⟩, hb]

lemma deliverInputActs_shape (st : GlkState) (input : List Nat) (b : Nat)
    (e : RefStruct) (hp : st.inputPending = true) (hb : st.inputBuffer = some b)
    (he : st.inputEvent = some e) (hlen : input.length ≤ st.inputMaxLen) :
    deliverInputActs st input
      = ((List.range input.length).map fun i => CbAct.bufWrite i (input.getD i 0))
          ++ [CbAct.evLenWrite input.length, CbAct.clearPending] := by
  unfold deliverInputActs
  rw [if_pos ⟨by rw [hp], by rw [hb]; rfl⟩, he]
  simp [Nat.min_eq_left hlen]

lemma foldl_bufWrites (input : List Nat) : ∀ (len : Nat) (st : GlkState) (b : Nat),
    st.inputBuffer = some b → b < st.heap.length → len ≤ input.length →
    ((List.range len).map fun i => CbAct.bufWrite i (input.getD i 0)).foldl applyAct st
      = { st with heap :=
            st.heap.set b (overwritePrefix (st.heap.getD b []) (input.take len)) } := by
  intro len
  induction len with
  | zero =>
    intro st b hb hlt _
    simp only [List.range_zero, List.map_nil, List.foldl_nil, List.take_zero,
      overwritePrefix_nil, set_getD_self _ _ _ hlt]
  | succ n ih =>
    intro st b hb hlt hle
    have hn : n < input.length := Nat.lt_of_succ_le hle
    rw [List.range_succ, List.map_append, List.foldl_append,
      ih st b hb hlt (Nat.le_of_succ_le hle)]
    have htake : input.take (n + 1) = input.take n ++ [input.getD n 0] := by
      rw [List.take_succ]
      simp [List.getElem?_eq_getElem hn, List.getD, Option.toList]
    have htklen : (input.take n).length = n := by
      simp [List.length_take, Nat.min_eq_left (Nat.le_of_lt hn)]
    have hset : (overwritePrefix (st.heap.getD b []) (input.take n)).set n
        (input.getD n 0)
        = overwritePrefix (st.heap.getD b []) (input.take (n + 1)) := by
      have h1 := overwritePrefix_set (input.take n) (st.heap.getD b [])
        (input.getD n 0)
      rw [htklen] at h1
      rw [h1, ← htake]
    have hgd : ((st.heap.set b (overwritePrefix (st.heap.getD b [])
        (input.take n))).getD b []) = overwritePrefix (st.heap.getD b [])
        (input.take n) := by
      simp [List.getD, List.getElem?_set_self, hlt]
    simp only [List.map_cons, List.map_nil, List.foldl_cons, List.foldl_nil,
      applyAct, hb]
    rw [heapWrite, hgd, List.set_set, hset]

lemma deliverInput_eq_foldl (st : GlkState) (input : List Nat) (b : Nat)
    (hb : st.inputBuffer = some b) (hlt : b < st.heap.length) :
    deliverInput st input = (deliverInputActs st input).foldl applyAct st := by
  by_cases hcond : (st.inputPending : Prop) ∧ st.inputBuffer.isSome
  · obtain ⟨hp, _⟩ := hcond
    simp only [deliverInput, deliverInputActs, hb, hp, Option.isSome_some,
      eq_self_iff_true, and_self, if_true]
    rw [List.foldl_append, List.foldl_append,
      foldl_bufWrites input (min input.length st.inputMaxLen) st b hb hlt
        (Nat.min_le_left _ _)]
    cases he : st.inputEvent with
    | none => simp [he, applyAct, hb]
    | some e => simp [he, applyAct, hb]
  · unfold deliverInput deliverInputActs
    rw [if_neg hcond, if_neg hcond]
    rfl

/-! ## C2 — line-input delivery -/

/-- C2: with a line request pending on registered buffer `b` of capacity
`inputMaxLen` (equal to the buffer's length as `_request_line` records it) and
a captured event `e`, a host callback delivering `input` of length
`L ≤ inputMaxLen` copies exactly the `L` character codes into the buffer in
order (the buffer becomes `input` followed by its untouched tail), sets
field 2 of the captured event to `L`, clears the pending flag, and performs
its atomic mutations in the order: all `L` buffer writes at ascending
indices, then the event-length write, then the pending-flag clear (the state
transformer equals the left fold of that action trace). -/
theorem line_input_delivery (st : GlkState) (input : List Nat) (b : Nat)
    (e : RefStruct) (hp : st.inputPending = true) (hb : st.inputBuffer = some b)
    (hlt : b < st.heap.length) (he : st.inputEvent = some e)
    (hlen : input.length ≤ st.inputMaxLen)
    (hcap : input.length ≤ (st.heap.getD b []).length) :
    (deliverInput st input).heap.getD b []
        = input ++ (st.heap.getD b []).drop input.length ∧
    (deliverInput st input).inputEvent
        = some (e.set_field 2 (.num input.length)) ∧
    (deliverInput st input).inputPending = false ∧
    deliverInputActs st input
      = ((List.range input.length).map fun i => CbAct.bufWrite i (input.getD i 0))
          ++ [CbAct.evLenWrite input.length, CbAct.clearPending] ∧
    deliverInput st input = (deliverInputActs st input).foldl applyAct st := by
  obtain ⟨h1, h2, h3⟩ := deliverInput_delivers st input b e hp hb hlt he hlen
  refine ⟨?_, h2, h3, ?_, ?_⟩
  · rw [h1, overwritePrefix_eq_append _ _ hcap]
  · exact deliverInputActs_shape st input b e hp hb he hlen
  · exact deliverInput_eq_foldl st input b hb hlt

theorem line_input_delivery_witness :
    (deliverInput (glk_select (_request_line (initState [[0, 0, 0, 0, 0]] [])
        (some 0) (some 0) 0) RefStruct.new).1 [110, 111]).heap.getD 0 []
      = [110, 111, 0, 0, 0] ∧
    (deliverInput (glk_select (_request_line (initState [[0, 0, 0, 0, 0]] [])
        (some 0) (some 0) 0) RefStruct.new).1 [110, 111]).inputPending = false ∧
    deliverInputActs (glk_select (_request_line (initState [[0, 0, 0, 0, 0]] [])
        (some 0) (some 0) 0) RefStruct.new).1 [110, 111]
      = [CbAct.bufWrite 0 110, CbAct.bufWrite 1 111, CbAct.evLenWrite 2,
         CbAct.clearPending] := by
  have h := line_input_delivery
    (glk_select (_request_line (initState [[0, 0, 0, 0, 0]] [])
      (some 0) (some 0) 0) RefStruct.new).1 [110, 111] 0
    ⟨[.num 3, .win mainWindowId, .num 0, .num 0]⟩
    rfl rfl (by decide) rfl (by decide) (by decide)
  exact ⟨h.1.trans (by decide), h.2.2.1, h.2.2.2.1.trans (by decide)⟩

/-! ## C3 — second request overwrites the first -/

/-- C3: issuing a second line request (buffer `b2`) while one on `b1` is still
pending overwrites the whole recorded request state with the second request's
values (buffer reference, maximum length = `b2`'s capacity, pending flag) and
abandons the first silently: a subsequently delivered input line populates
only `b2` — `b1`'s contents are exactly what they were before either request.
The recorded request state is a single record, so at most one request is
pending at any time. -/
theorem second_request_overwrites (st : GlkState) (w : Option Nat)
    (b1 b2 : Nat) (n1 n2 : Nat) (input : List Nat)
    (hne : b1 ≠ b2) (hb2 : b2 < st.heap.length) :
    (_request_line (_request_line st w (some b1) n1) w (some b2) n2).inputBuffer
        = some b2 ∧
    (_request_line (_request_line st w (some b1) n1) w (some b2) n2).inputMaxLen
        = (st.heap.getD b2 []).length ∧
    (_request_line (_request_line st w (some b1) n1) w (some b2) n2).inputPending
        = true ∧
    (_request_line (_request_line st w (some b1) n1) w (some b2) n2).resolver
        = true ∧
    (deliverInput (_request_line (_request_line st w (some b1) n1) w (some b2) n2)
        input).heap.getD b1 [] = st.heap.getD b1 [] ∧
    (input.length ≤ (st.heap.getD b2 []).length →
      (deliverInput (_request_line (_request_line st w (some b1) n1) w (some b2) n2)
          input).heap.getD b2 []
        = input ++ (st.heap.getD b2 []).drop input.length) := by
  have hh1 : (_request_line st w (some b1) n1).heap = st.heap :=
    request_line_heap st w (some b1) n1
  have hh2 : (_request_line (_request_line st w (some b1) n1) w (some b2) n2).heap
      = st.heap := by
    rw [request_line_heap, hh1]
  have hbuf : (_request_line (_request_line st w (some b1) n1) w (some b2) n2).inputBuffer
      = some b2 := request_line_inputBuffer _ w (some b2) n2
  have hmax : (_request_line (_request_line st w (some b1) n1) w (some b2) n2).inputMaxLen
      = (st.heap.getD b2 []).length := by
    rw [request_line_inputMaxLen, hh1]
  refine ⟨hbuf, hmax, request_line_pending _ w (some b2) n2,
    request_line_resolver _ w (some b2) n2, ?_, ?_⟩
  · rw [deliverInput_heap_other _ input b2 b1 hbuf (fun hh => hne hh.symm), hh2]
  · intro hcap
    rw [deliverInput_heap_self _ input b2 (request_line_pending _ w (some b2) n2)
      hbuf (by rw [hh2]; exact hb2), hh2, hmax, Nat.min_eq_left hcap,
      List.take_length, overwritePrefix_eq_append _ _ hcap]

theorem second_request_overwrites_witness :
    (_request_line (_request_line (initState [[7], [0, 0]] []) none (some 0) 0)
        none (some 1) 0).inputBuffer = some 1 ∧
    (deliverInput (_request_line (_request_line (initState [[7], [0, 0]] [])
        none (some 0) 0) none (some 1) 0) [65]).heap.getD 0 [] = [7] ∧
    (deliverInput (_request_line (_request_line (initState [[7], [0, 0]] [])
        none (some 0) 0) none (some 1) 0) [65]).heap.getD 1 [] = [65, 0] := by
  have h := second_request_overwrites (initState [[7], [0, 0]] []) none 0 1 0 0
    [65] (by decide) (by decide)
  exact ⟨h.1, h.2.2.2.2.1.trans (by decide),
    ((h.2.2.2.2.2 (by decide)).trans (by decide))⟩

/-! ## C10 — cancel leaves the adapter input state intact -/

/-- C10: `glk_cancel_line_event` changes only the window's pending-input kind
and buffer reference (and reports kind 0 through the supplied result
structure): the state differs from the original only in its `windows` field,
so the recorded request state — pending flag, buffer reference, maximum
length, captured event — survives, and a host callback firing after the
cancel still copies the delivered text into the previously registered buffer,
patches the captured event's length field, and clears the pending flag. -/
theorem cancel_line_frame (st : GlkState) (wid : Nat) (ev : Option RefStruct)
    (b : Nat) (e : RefStruct) (input : List Nat)
    (hw : wid < st.windows.length)
    (hp : st.inputPending = true) (hb : st.inputBuffer = some b)
    (hlt : b < st.heap.length) (he : st.inputEvent = some e)
    (hlen : input.length ≤ st.inputMaxLen) :
    (glk_cancel_line_event st (some wid) ev).1
        = { st with windows := (glk_cancel_line_event st (some wid) ev).1.windows } ∧
    (getWindow (glk_cancel_line_event st (some wid) ev).1 wid).input_request_type
        = none ∧
    (getWindow (glk_cancel_line_event st (some wid) ev).1 wid).line_input_buf
        = none ∧
    (glk_cancel_line_event st (some wid) ev).2
        = ev.map (fun x => x.set_field 0 (.num 0)) ∧
    (input.length ≤ (st.heap.getD b []).length →
      (deliverInput (glk_cancel_line_event st (some wid) ev).1 input).heap.getD b []
        = input ++ (st.heap.getD b []).drop input.length) ∧
    (deliverInput (glk_cancel_line_event st (some wid) ev).1 input).inputEvent
        = some (e.set_field 2 (.num input.length)) ∧
    (deliverInput (glk_cancel_line_event st (some wid) ev).1 input).inputPending
        = false := by
  have hfields : (glk_cancel_line_event st (some wid) ev).1
      = setWindow st wid { getWindow st wid with input_request_type := none
                                                 line_input_buf := none } := rfl
  obtain ⟨h1, h2, h3⟩ := deliverInput_delivers
    (glk_cancel_line_event st (some wid) ev).1 input b e hp hb hlt he hlen
  refine ⟨rfl, ?_, ?_, rfl, ?_, h2, h3⟩
  · rw [hfields]
    simp [getWindow, setWindow, List.getD, List.getElem?_set_self, hw]
  · rw [hfields]
    simp [getWindow, setWindow, List.getD, List.getElem?_set_self, hw]
  · intro hcap
    have hh : (glk_cancel_line_event st (some wid) ev).1.heap = st.heap := rfl
    rw [h1, hh, overwritePrefix_eq_append _ _ hcap]

theorem cancel_line_frame_witness :
    (deliverInput (glk_cancel_line_event
        (glk_select (_request_line (initState [[0, 0, 0, 0, 0]] [])
          (some 0) (some 0) 0) RefStruct.new).1 (some 0) none).1
        [110, 111]).heap.getD 0 [] = [110, 111, 0, 0, 0] ∧
    (deliverInput (glk_cancel_line_event
        (glk_select (_request_line (initState [[0, 0, 0, 0, 0]] [])
          (some 0) (some 0) 0) RefStruct.new).1 (some 0) none).1
        [110, 111]).inputPending = false := by
  have h := cancel_line_frame
    (glk_select (_request_line (initState [[0, 0, 0, 0, 0]] [])
      (some 0) (some 0) 0) RefStruct.new).1 0 none 0
    ⟨[.num 3, .win mainWindowId, .num 0, .num 0]⟩ [110, 111]
    (by decide) rfl rfl (by decide) rfl (by decide)
  exact ⟨(h.2.2.2.2.1 (by decide)).trans (by decide), h.2.2.2.2.2.2⟩

/-! ## C7 — reads advance or return the sentinel -/

lemma getStream_setStream_self (st : GlkState) (sid : Nat) (s : GStream)
    (h : sid < st.streams.length) : getStream (setStream st sid s) sid = s := by
  simp [getStream, setStream, List.getD, List.getElem?_set_self, h]

lemma getBufLoop_le (sid tgt : Nat) : ∀ (n i : Nat) (st : GlkState),
    (getBufLoop sid tgt i n st).1 ≤ n := by
  intro n
  induction n with
  | zero => intro i st; simp [getBufLoop]
  | succ n ih =>
    intro i st
    simp only [getBufLoop]
    split
    · simp
    · exact Nat.succ_le_succ (ih (i + 1) _)

/-- C7 (amended): a read that finds data — from the bound fixed buffer when
the cursor is below its capacity, or otherwise from the internal `data`
sequence when the cursor is below its length — advances the cursor by one,
increments the read counter by one, and returns the stored (non-negative)
value, not the sentinel; a read past end-of-data returns `-1` and leaves the
stream, its cursor and its counters untouched; and a bulk read built on it
stores at most the requested number of characters. -/
theorem read_advances_or_sentinel (st : GlkState) (sid tgt len : Nat)
    (hsid : sid < st.streams.length) :
    (∀ b : Nat, (getStream st sid).buf = some b →
      (getStream st sid).pos < ((getStream st sid).buflen : Int) →
      getStream (glk_get_char_stream st sid).2 sid
          = advanceRead (getStream st sid) ∧
      (glk_get_char_stream st sid).1
          = (heapRead st.heap b (getStream st sid).pos : Int) ∧
      0 ≤ (glk_get_char_stream st sid).1) ∧
    (((getStream st sid).buf = none ∨
        ((getStream st sid).buflen : Int) ≤ (getStream st sid).pos) →
      (getStream st sid).pos < ((getStream st sid).data.length : Int) →
      getStream (glk_get_char_stream st sid).2 sid
          = advanceRead (getStream st sid) ∧
      (glk_get_char_stream st sid).1
          = (dataRead (getStream st sid).data (getStream st sid).pos : Int) ∧
      0 ≤ (glk_get_char_stream st sid).1) ∧
    (¬ ((getStream st sid).buf.isSome
          ∧ (getStream st sid).pos < ((getStream st sid).buflen : Int)) →
      ¬ ((getStream st sid).pos < ((getStream st sid).data.length : Int)) →
      (glk_get_char_stream st sid).1 = -1 ∧ (glk_get_char_stream st sid).2 = st) ∧
    (glk_get_buffer_stream st sid tgt len).1
        ≤ (if len = 0 then (st.heap.getD tgt []).length else len) := by
  refine ⟨?_, ?_, ?_, ?_⟩
  · intro b hbuf hpos
    simp only [glk_get_char_stream, hbuf, if_pos hpos]
    refine ⟨?_, by simp, Int.natCast_nonneg _⟩
    rw [getStream_setStream_self st sid _ hsid]
    simp [advanceRead, ← hbuf]
  · intro hdis hpos
    rcases hdis with hbuf | hge
    · simp only [glk_get_char_stream, hbuf, if_pos hpos]
      refine ⟨?_, by simp, Int.natCast_nonneg _⟩
      rw [getStream_setStream_self st sid _ hsid]
      simp [advanceRead]
      exact hbuf.symm
    · cases hbuf : (getStream st sid).buf with
      | none =>
        simp only [glk_get_char_stream, hbuf, if_pos hpos]
        refine ⟨?_, by simp, Int.natCast_nonneg _⟩
        rw [getStream_setStream_self st sid _ hsid]
        simp [advanceRead]
        exact hbuf.symm
      | some b =>
        simp only [glk_get_char_stream, hbuf, if_neg (not_lt.mpr hge), if_pos hpos]
        refine ⟨?_, by simp, Int.natCast_nonneg _⟩
        rw [getStream_setStream_self st sid _ hsid]
        simp [advanceRead, ← hbuf]
  · intro hnb hnd
    cases hbuf : (getStream st sid).buf with
    | none =>
      simp only [glk_get_char_stream, hbuf, if_neg hnd]
      exact ⟨by simp, by simp⟩
    | some b =>
      have hge : ¬ ((getStream st sid).pos < ((getStream st sid).buflen : Int)) :=
        fun hlt2 => hnb ⟨by rw [hbuf]; rfl, hlt2⟩
      simp only [glk_get_char_stream, hbuf, if_neg hge, if_neg hnd]
      exact ⟨by simp, by simp⟩
  · exact getBufLoop_le sid tgt _ 0 st

theorem read_advances_or_sentinel_witness :
    getStream (glk_get_char_stream
        (setStream (initState [] []) 0 { freshStream 201 with data := [5] }) 0).2 0
      = { freshStream 201 with data := [5], pos := 1, read_count := 1 } ∧
    (glk_get_char_stream
        (setStream (initState [] []) 0 { freshStream 201 with data := [5] }) 0).1
      = 5 := by
  have h := read_advances_or_sentinel
    (setStream (initState [] []) 0 { freshStream 201 with data := [5] })
    0 0 0 (by decide)
  obtain ⟨-, h2, -, -⟩ := h
  have h3 := h2 (Or.inl (by decide)) (by decide)
  exact ⟨h3.1.trans (by decide), h3.2.1.trans (by decide)⟩

/-! ## C5 — cursor bounds under reads and writes -/

lemma setStream_streams_length (st : GlkState) (sid : Nat) (s : GStream) :
    (setStream st sid s).streams.length = st.streams.length := by
  simp [setStream]

lemma cast_le_max_left (a : Int) (b c : Nat) (h : a ≤ (b : Int)) :
    a ≤ ((max b c : Nat) : Int) :=
  le_trans h (by exact_mod_cast Nat.le_max_left b c)

lemma cast_le_max_right (a : Int) (b c : Nat) (h : a ≤ (c : Int)) :
    a ≤ ((max b c : Nat) : Int) :=
  le_trans h (by exact_mod_cast Nat.le_max_right b c)

lemma cast_le_max_mono (a : Int) (b c c' : Nat)
    (h : a ≤ ((max b c : Nat) : Int)) (hcc : c ≤ c') :
    a ≤ ((max b c' : Nat) : Int) :=
  le_trans h (by exact_mod_cast max_le_max (le_refl b) hcc)

lemma cursorBound_get_char (st : GlkState) (sid : Nat)
    (hsid : sid < st.streams.length) (hcb : cursorBound st sid) :
    cursorBound (glk_get_char_stream st sid).2 sid := by
  obtain ⟨h0, h1⟩ := hcb
  simp only [glk_get_char_stream]
  cases hbuf : (getStream st sid).buf with
  | some b =>
    dsimp only
    by_cases hpos : (getStream st sid).pos < ((getStream st sid).buflen : Int)
    · rw [if_pos hpos]
      unfold cursorBound
      rw [getStream_setStream_self]
      · dsimp only
        exact ⟨by omega, cast_le_max_left _ _ _ (by omega)⟩
      · exact hsid
    · rw [if_neg hpos]
      by_cases hpos2 : (getStream st sid).pos < ((getStream st sid).data.length : Int)
      · rw [if_pos hpos2]
        unfold cursorBound
        rw [getStream_setStream_self]
        · dsimp only
          exact ⟨by omega, cast_le_max_right _ _ _ (by omega)⟩
        · exact hsid
      · rw [if_neg hpos2]
        exact ⟨h0, h1⟩
  | none =>
    dsimp only
    by_cases hpos2 : (getStream st sid).pos < ((getStream st sid).data.length : Int)
    · rw [if_pos hpos2]
      unfold cursorBound
      rw [getStream_setStream_self]
      · dsimp only
        exact ⟨by omega, cast_le_max_right _ _ _ (by omega)⟩
      · exact hsid
    · rw [if_neg hpos2]
      exact ⟨h0, h1⟩

lemma cursorBound_put_char (st : GlkState) (sid : Nat) (ch : Nat)
    (hsid : sid < st.streams.length) (hcb : cursorBound st sid) :
    cursorBound (glk_put_char_stream st sid ch) sid := by
  obtain ⟨h0, h1⟩ := hcb
  simp only [glk_put_char_stream]
  by_cases hmc : sid = mainStreamId ∨ sid = st.currentStream
  · rw [if_pos hmc]
    unfold cursorBound
    rw [getStream_setStream_self]
    · exact ⟨h0, h1⟩
    · exact hsid
  · rw [if_neg hmc]
    cases hbuf : (getStream st sid).buf with
    | some b =>
      simp only [hbuf, Option.isSome_some, eq_self_iff_true, if_true]
      by_cases hpos : (getStream st sid).pos < ((getStream st sid).buflen : Int)
      · rw [if_pos hpos]
        unfold cursorBound
        rw [getStream_setStream_self]
        · rw [getStream_setStream_self]
          · dsimp only
            exact ⟨by omega, cast_le_max_left _ _ _ (by omega)⟩
          · exact hsid
        · rw [setStream_streams_length]
          exact hsid
      · rw [if_neg hpos]
        unfold cursorBound
        rw [getStream_setStream_self]
        · exact ⟨h0, h1⟩
        · exact hsid
    | none =>
      simp only [hbuf, Option.isSome_none, Bool.false_eq_true, if_false,
        jsArrayTruthy, eq_self_iff_true, if_true]
      unfold cursorBound
      rw [getStream_setStream_self]
      · rw [getStream_setStream_self]
        · dsimp only
          exact ⟨h0, cast_le_max_mono _ _ _ _ h1 (by simp)⟩
        · exact hsid
      · rw [setStream_streams_length]
        exact hsid

lemma cursorBound_put_string (st : GlkState) (sid : Nat) (text : List Nat)
    (hsid : sid < st.streams.length) (hcb : cursorBound st sid) :
    cursorBound (glk_put_string_stream st sid text) sid := by
  obtain ⟨h0, h1⟩ := hcb
  simp only [glk_put_string_stream]
  by_cases hmc : sid = mainStreamId ∨ sid = st.currentStream
  · rw [if_pos hmc]
    unfold cursorBound
    rw [getStream_setStream_self]
    · exact ⟨h0, h1⟩
    · exact hsid
  · rw [if_neg hmc]
    simp only [jsArrayTruthy, eq_self_iff_true, if_true]
    unfold cursorBound
    rw [getStream_setStream_self]
    · rw [getStream_setStream_self]
      · dsimp only
        exact ⟨h0, cast_le_max_mono _ _ _ _ h1 (by simp)⟩
      · exact hsid
    · rw [setStream_streams_length]
      exact hsid

lemma cursorBound_put_buffer (st : GlkState) (sid : Nat) (buf : List Nat)
    (hsid : sid < st.streams.length) (hcb : cursorBound st sid) :
    cursorBound (glk_put_buffer_stream st sid buf) sid := by
  obtain ⟨h0, h1⟩ := hcb
  simp only [glk_put_buffer_stream]
  by_cases hmc : sid = mainStreamId ∨ sid = st.currentStream
  · rw [if_pos hmc]
    unfold cursorBound
    rw [getStream_setStream_self]
    · exact ⟨h0, h1⟩
    · exact hsid
  · rw [if_neg hmc]
    simp only [jsArrayTruthy, eq_self_iff_true, if_true]
    unfold cursorBound
    rw [getStream_setStream_self]
    · rw [getStream_setStream_self]
      · dsimp only
        exact ⟨h0, cast_le_max_mono _ _ _ _ h1 (by simp)⟩
      · exact hsid
    · rw [setStream_streams_length]
      exact hsid

lemma heapWrite_entry_length (heap : List (List Nat)) (b i v : Nat) (b' : Nat) :
    (((heapWrite heap b i v).getD b' []) : List Nat).length
      = ((heap.getD b' []) : List Nat).length := by
  unfold heapWrite
  by_cases hbb : b = b'
  · subst hbb
    by_cases hr : b < heap.length
    · rw [getD_set_same _ _ _ _ hr, List.length_set]
    · rw [List.set_eq_of_length_le (Nat.le_of_not_lt hr)]
  · rw [getD_set_other _ _ _ _ _ hbb]

lemma put_char_heap_length (st : GlkState) (sid : Nat) (ch : Nat) (b' : Nat) :
    (((glk_put_char_stream st sid ch).heap.getD b' []) : List Nat).length
      = ((st.heap.getD b' []) : List Nat).length := by
  simp only [glk_put_char_stream]
  by_cases hmc : sid = mainStreamId ∨ sid = st.currentStream
  · rw [if_pos hmc]
    rfl
  · rw [if_neg hmc]
    cases hbuf : (getStream st sid).buf with
    | some b =>
      simp only [Option.isSome_some, eq_self_iff_true, if_true]
      by_cases hpos : (getStream st sid).pos < ((getStream st sid).buflen : Int)
      · rw [if_pos hpos]
        simp only [setStream]
        exact heapWrite_entry_length st.heap b _ ch b'
      · rw [if_neg hpos]
        rfl
    | none =>
      simp only [Option.isSome_none, Bool.false_eq_true, if_false,
        jsArrayTruthy, eq_self_iff_true, if_true]
      rfl

lemma put_char_full_drop (st : GlkState) (sid : Nat) (ch : Nat) (b : Nat)
    (hsid : sid < st.streams.length)
    (hbuf : (getStream st sid).buf = some b)
    (hmc : ¬ (sid = mainStreamId ∨ sid = st.currentStream))
    (hge : ((getStream st sid).buflen : Int) ≤ (getStream st sid).pos) :
    (glk_put_char_stream st sid ch).heap = st.heap ∧
    getStream (glk_put_char_stream st sid ch) sid
      = bumpWrite (getStream st sid) 1 := by
  simp only [glk_put_char_stream, hbuf, Option.isSome_some, eq_self_iff_true,
    if_true]
  rw [if_neg hmc, if_neg (not_lt.mpr hge)]
  constructor
  · rfl
  · rw [getStream_setStream_self]
    · rfl
    · exact hsid

/-- C5 (amended): for all read and write operations on a stream, the cursor
stays within `[0, max(capacity, data length)]` — for a sequence-backed
stream the capacity field is 0, so this is the claimed `[0, data length]`,
and for a fixed-buffer stream whose internal `data` sequence is empty (the
state memory streams are opened in) it is the claimed `[0, capacity]`;
fixed-buffer writes never change the bound buffer's length, and a character
write at or past capacity is silently dropped — the heap is untouched and
the stream changes only by its write counter.  `glk_stream_set_position`
itself performs no clamping and can place the cursor anywhere, including
outside these bounds (see the counterexample). -/
theorem cursor_bounds_preserved (st : GlkState) (sid : Nat) (ch : Nat)
    (text buf : List Nat) (b : Nat) (hsid : sid < st.streams.length) :
    (cursorBound st sid → cursorBound (glk_get_char_stream st sid).2 sid) ∧
    (cursorBound st sid → cursorBound (glk_put_char_stream st sid ch) sid) ∧
    (cursorBound st sid → cursorBound (glk_put_string_stream st sid text) sid) ∧
    (cursorBound st sid → cursorBound (glk_put_buffer_stream st sid buf) sid) ∧
    (∀ b' : Nat, (((glk_put_char_stream st sid ch).heap.getD b' []) : List Nat).length
        = ((st.heap.getD b' []) : List Nat).length) ∧
    ((getStream st sid).buf = some b →
      ¬ (sid = mainStreamId ∨ sid = st.currentStream) →
      ((getStream st sid).buflen : Int) ≤ (getStream st sid).pos →
      (glk_put_char_stream st sid ch).heap = st.heap ∧
      getStream (glk_put_char_stream st sid ch) sid
        = bumpWrite (getStream st sid) 1) := by
  exact ⟨cursorBound_get_char st sid hsid, cursorBound_put_char st sid ch hsid,
    cursorBound_put_string st sid text hsid, cursorBound_put_buffer st sid buf hsid,
    put_char_heap_length st sid ch,
    fun hbuf hmc hge => put_char_full_drop st sid ch b hsid hbuf hmc hge⟩

theorem cursor_bounds_preserved_witness :
    cursorBound (glk_put_char_stream
        (glk_stream_open_memory (initState [[]] []) 0 0 1 0).1 1 65) 1 ∧
    (glk_put_char_stream
        (glk_stream_open_memory (initState [[]] []) 0 0 1 0).1 1 65).heap = [[]] := by
  have h := cursor_bounds_preserved
    (glk_stream_open_memory (initState [[]] []) 0 0 1 0).1 1 65 [] [] 0 (by decide)
  exact ⟨h.2.1 (by decide),
    (h.2.2.2.2.2 rfl (by decide) (by decide)).1.trans (by decide)⟩

/-! ## C1 — output buffering and flushing -/

lemma flushOutput_empty (st : GlkState) : (flushOutput st).outputBuffer = [] := by
  unfold flushOutput
  split
  next h => exact h
  next => rfl

lemma flushOutput_out (st : GlkState) :
    joinPrinted (flushOutput st) ++ (flushOutput st).outputBuffer
      = joinPrinted st ++ st.outputBuffer := by
  unfold flushOutput joinPrinted
  split
  next h => rw [h]
  next => simp

lemma runOp_out (st : GlkState) (op : COp) :
    joinPrinted (runOp st op) ++ (runOp st op).outputBuffer
      = joinPrinted st ++ st.outputBuffer ++ writtenOut op := by
  cases op with
  | putChar ch => simp [runOp, glk_put_char, writtenOut, joinPrinted]
  | putString t => simp [runOp, glk_put_string, writtenOut, joinPrinted]
  | putBuffer b => simp [runOp, glk_put_buffer, writtenOut, joinPrinted]
  | putCharUni ch => simp [runOp, glk_put_char_uni, writtenOut, joinPrinted]
  | putStringUni t => simp [runOp, glk_put_string_uni, writtenOut, joinPrinted]
  | putBufferUni b => simp [runOp, glk_put_buffer_uni, writtenOut, joinPrinted]
  | putJString t =>
    by_cases h : t = [] <;>
      simp [runOp, glk_put_jstring, writtenOut, joinPrinted, h]
  | putCharStream toMain ch =>
    cases toMain <;>
      simp [runOp, glk_put_char_stream, setStream, writtenOut, joinPrinted,
        mainStreamId]
  | putStringStream toMain t =>
    cases toMain <;>
      simp [runOp, glk_put_string_stream, setStream, writtenOut, joinPrinted,
        mainStreamId]
  | putBufferStream toMain b =>
    cases toMain <;>
      simp [runOp, glk_put_buffer_stream, setStream, writtenOut, joinPrinted,
        mainStreamId]
  | putJStringStream toMain t =>
    by_cases h : t = [] <;> cases toMain <;>
      simp [runOp, glk_put_jstring_stream, glk_put_string_stream, setStream,
        writtenOut, joinPrinted, mainStreamId, h]
  | putCharStreamUni toMain ch =>
    cases toMain <;>
      simp [runOp, glk_put_char_stream_uni, glk_put_char_stream, setStream,
        writtenOut, joinPrinted, mainStreamId]
  | updateOp =>
    simpa [runOp, update, writtenOut] using flushOutput_out st
  | requestLine wid bufid initlen =>
    cases wid <;>
      simpa [runOp, _request_line, setWindow, writtenOut, joinPrinted]
        using flushOutput_out st
  | requestChar wid =>
    cases wid <;>
      simpa [runOp, glk_request_char_event, setWindow, writtenOut, joinPrinted]
        using flushOutput_out st
  | exitOp =>
    have h := flushOutput_out st
    unfold joinPrinted at h
    rw [flushOutput_empty, List.append_nil] at h
    simp only [runOp, glk_exit, writtenOut, joinPrinted, List.flatten_append,
      List.flatten_cons, List.flatten_nil, List.append_nil, flushOutput_empty]
    rw [h]

lemma runOp_flush (st : GlkState) (op : COp) (h : isFlush op = true) :
    (runOp st op).outputBuffer = [] := by
  cases op
  case updateOp => exact flushOutput_empty st
  case requestLine wid bufid initlen =>
    cases wid <;> simp [runOp, _request_line, setWindow, flushOutput_empty]
  case requestChar wid =>
    cases wid <;> simp [runOp, glk_request_char_event, setWindow, flushOutput_empty]
  case exitOp =>
    simpa [runOp, glk_exit] using flushOutput_empty st
  all_goals simp [isFlush] at h

lemma runOps_out : ∀ (ops : List COp) (st : GlkState),
    joinPrinted (runOps ops st) ++ (runOps ops st).outputBuffer
      = joinPrinted st ++ st.outputBuffer ++ ((ops.map writtenOut).flatten) := by
  intro ops
  induction ops with
  | nil => intro st; simp [runOps]
  | cons op ops ih =>
    intro st
    have h1 : runOps (op :: ops) st = runOps ops (runOp st op) := rfl
    rw [h1, ih (runOp st op)]
    rw [runOp_out]
    simp [List.append_assoc]

/-- C1 (amended): running any sequence of writes to the currently selected
stream (direct, unicode, jstring, and stream forms on the main or current
stream) interleaved with flush checkpoints from a fresh adapter, the
terminal's `print` receives exactly the concatenation of the written text in
write order with no loss or reordering — except that `glk_exit` additionally
contributes the fixed session-ended banner at its position — and the output
buffer is the empty string immediately after each flush checkpoint, at which
point everything written so far has been handed to `print`. -/
theorem output_flush_concat (ops : List COp) (heap : List (List Nat))
    (store : List (String × String)) :
    (joinPrinted (runOps ops (initState heap store))
        ++ (runOps ops (initState heap store)).outputBuffer
      = ((ops.map writtenOut).flatten)) ∧
    ∀ (pre : List COp) (op : COp), isFlush op = true →
      (runOps (pre ++ [op]) (initState heap store)).outputBuffer = [] ∧
      joinPrinted (runOps (pre ++ [op]) (initState heap store))
        = (((pre ++ [op]).map writtenOut).flatten) := by
  constructor
  · have h := runOps_out ops (initState heap store)
    simpa [initState, joinPrinted] using h
  · intro pre op hf
    have hsplit : runOps (pre ++ [op]) (initState heap store)
        = runOp (runOps pre (initState heap store)) op := by
      unfold runOps
      rw [List.foldl_append]
      rfl
    have hob : (runOps (pre ++ [op]) (initState heap store)).outputBuffer = [] := by
      rw [hsplit]
      exact runOp_flush _ op hf
    refine ⟨hob, ?_⟩
    have h2 := runOps_out (pre ++ [op]) (initState heap store)
    rw [hob, List.append_nil] at h2
    simpa [initState, joinPrinted] using h2

theorem output_flush_concat_witness :
    (runOps [COp.putChar 65, COp.updateOp] (initState [] [])).outputBuffer = [] ∧
    joinPrinted (runOps [COp.putChar 65, COp.updateOp] (initState [] [])) = [65] := by
  have h := (output_flush_concat [COp.putChar 65, COp.updateOp] [] []).2
    [COp.putChar 65] COp.updateOp (by decide)
  exact ⟨h.1, h.2.trans (by decide)⟩

/-! ## C6 — save/restore round trip -/

lemma digitChar_isDigit (d : Nat) (h : d < 10) : isDigitCh (digitChar d) = true := by
  interval_cases d <;> decide

lemma digitVal_digitChar (d : Nat) (h : d < 10) : digitVal (digitChar d) = d := by
  interval_cases d <;> decide

lemma natChars_ne_nil (n : Nat) : natChars n ≠ [] := by
  unfold natChars
  split
  next => simp
  next h0 =>
    simp only [ne_eq, List.map_eq_nil_iff, List.reverse_eq_nil_iff]
    exact Nat.digits_ne_nil_iff_ne_zero.mpr h0

lemma natChars_all_digits (n : Nat) : ∀ c ∈ natChars n, isDigitCh c = true := by
  unfold natChars
  split
  next =>
    intro c hc
    simp only [List.mem_singleton] at hc
    subst hc
    decide
  next h0 =>
    intro c hc
    simp only [List.mem_map, List.mem_reverse] at hc
    obtain ⟨d, hd, rfl⟩ := hc
    exact digitChar_isDigit d (Nat.digits_lt_base (by norm_num) hd)

lemma foldr_digits (L : List Nat) (h : ∀ d ∈ L, d < 10) :
    L.foldr (fun d a => 10 * a + digitVal (digitChar d)) 0 = Nat.ofDigits 10 L := by
  induction L with
  | nil => simp [Nat.ofDigits]
  | cons d L ih =>
    rw [List.foldr_cons, ih (fun x hx => h x (List.mem_cons_of_mem _ hx)),
      Nat.ofDigits_cons, digitVal_digitChar d (h d (List.mem_cons_self _ _))]
    ring

lemma digitsVal_natChars (n : Nat) : digitsVal (natChars n) = n := by
  unfold digitsVal natChars
  split
  next h0 => rw [h0]; decide
  next h0 =>
    rw [List.map_reverse, List.foldl_reverse, List.foldr_map]
    rw [foldr_digits _ (fun d hd => Nat.digits_lt_base (by norm_num) hd)]
    exact Nat.ofDigits_digits 10 n

lemma digitChar_ne_zero (d : Nat) (h : d < 10) (h0 : d ≠ 0) :
    digitChar d ≠ '0' := by
  interval_cases d
  · exact absurd rfl h0
  all_goals decide

lemma natChars_head_digit (n : Nat) :
    ∃ c t, natChars n = c :: t ∧ isDigitCh c = true := by
  cases hsh : natChars n with
  | nil => exact absurd hsh (natChars_ne_nil n)
  | cons c t =>
    exact ⟨c, t, rfl, natChars_all_digits n c (hsh ▸ List.mem_cons_self _ _)⟩

lemma natChars_pos_shape (n : Nat) (h : n ≠ 0) :
    ∃ d L, natChars n = digitChar d :: L ∧ d < 10 ∧ d ≠ 0 ∧
      ∀ c ∈ L, isDigitCh c = true := by
  unfold natChars
  rw [if_neg h]
  have hnil : Nat.digits 10 n ≠ [] := Nat.digits_ne_nil_iff_ne_zero.mpr h
  have hne : (Nat.digits 10 n).reverse ≠ [] := by
    simp only [ne_eq, List.reverse_eq_nil_iff]
    exact hnil
  obtain ⟨d, L0, hdl⟩ := List.exists_cons_of_ne_nil hne
  refine ⟨d, L0.map digitChar, by rw [hdl, List.map_cons], ?_, ?_, ?_⟩
  · have hmem : d ∈ Nat.digits 10 n := by
      rw [← List.mem_reverse, hdl]
      exact List.mem_cons_self _ _
    exact Nat.digits_lt_base (by norm_num) hmem
  · have hlast : (Nat.digits 10 n).getLast? = some d := by
      rw [← List.head?_reverse, hdl]
      rfl
    rw [List.getLast?_eq_getLast _ hnil] at hlast
    have hlv : (Nat.digits 10 n).getLast hnil = d := Option.some_inj.mp hlast
    intro h0
    exact Nat.getLast_digit_ne_zero 10 h (by rw [hlv, h0])
  · intro c hc
    simp only [List.mem_map] at hc
    obtain ⟨d2, hd2, rfl⟩ := hc
    have hmem : d2 ∈ Nat.digits 10 n := by
      rw [← List.mem_reverse, hdl]
      exact List.mem_cons_of_mem _ hd2
    exact digitChar_isDigit d2 (Nat.digits_lt_base (by norm_num) hmem)

lemma jsWS_of_digit (c : Char) (h : isDigitCh c = true) : jsWS c = false := by
  unfold isDigitCh at h
  simp only [Bool.and_eq_true, decide_eq_true_eq] at h
  have h32 : c ≠ ' ' := by intro hc; subst hc; exact absurd h (by decide)
  have h9 : c ≠ '\t' := by intro hc; subst hc; exact absurd h (by decide)
  have h10 : c ≠ '\n' := by intro hc; subst hc; exact absurd h (by decide)
  have h13 : c ≠ '\r' := by intro hc; subst hc; exact absurd h (by decide)
  simp [jsWS, h32, h9, h10, h13]

lemma digit_ne (c x : Char) (h : isDigitCh c = true)
    (hx : isDigitCh x = false) : c ≠ x := fun hc => by
  rw [hc, hx] at h
  exact Bool.false_ne_true h

lemma skipWS_cons_not (c : Char) (t : List Char) (h : jsWS c = false) :
    skipWS (c :: t) = c :: t := by
  simp [skipWS, List.dropWhile_cons, h]

lemma takeWhile_append_all (p : Char → Bool) :
    ∀ (l r : List Char), (∀ c ∈ l, p c = true) →
      (l ++ r).takeWhile p = l ++ r.takeWhile p
  | [], _, _ => rfl
  | c :: l, r, h => by
    simp only [List.cons_append, List.takeWhile_cons,
      h c (List.mem_cons_self _ _), if_true]
    rw [takeWhile_append_all p l r (fun x hx => h x (List.mem_cons_of_mem _ hx))]

lemma dropWhile_append_all (p : Char → Bool) :
    ∀ (l r : List Char), (∀ c ∈ l, p c = true) →
      (l ++ r).dropWhile p = r.dropWhile p
  | [], _, _ => rfl
  | c :: l, r, h => by
    simp only [List.cons_append, List.dropWhile_cons,
      h c (List.mem_cons_self _ _), if_true]
    exact dropWhile_append_all p l r (fun x hx => h x (List.mem_cons_of_mem _ hx))

lemma takeWhile_head_false (p : Char → Bool) (r : List Char)
    (h : ∀ c, r.head? = some c → p c = false) : r.takeWhile p = [] := by
  cases r with
  | nil => rfl
  | cons c t => simp [List.takeWhile_cons, h c rfl]

lemma dropWhile_head_false (p : Char → Bool) (r : List Char)
    (h : ∀ c, r.head? = some c → p c = false) : r.dropWhile p = r := by
  cases r with
  | nil => rfl
  | cons c t => simp [List.dropWhile_cons, h c rfl]

lemma parseFrac_not (cs : List Char) (h : cs.head? ≠ some '.') :
    parseFrac cs = some (false, cs) := by
  unfold parseFrac
  rw [if_neg h]

lemma parseExp_not (cs : List Char) (h1 : cs.head? ≠ some 'e')
    (h2 : cs.head? ≠ some 'E') : parseExp cs = some (false, cs) := by
  unfold parseExp
  rw [if_neg (fun h => h.elim h1 h2)]

lemma parseUNumber_natChars (n : Nat) (hn : n < 2 ^ 53) (rest : List Char)
    (hd : ∀ c, rest.head? = some c → isDigitCh c = false)
    (h1 : rest.head? ≠ some '.')
    (h2 : rest.head? ≠ some 'e') (h3 : rest.head? ≠ some 'E') :
    parseUNumber (natChars n ++ rest) = some (some n, rest) := by
  by_cases h0 : n = 0
  · subst h0
    show parseUNumber ('0' :: rest) = some (some 0, rest)
    unfold parseUNumber
    dsimp only
    rw [if_pos (by decide : isDigitCh '0' = true), if_pos rfl,
      parseFrac_not rest h1]
    dsimp only
    rw [parseExp_not rest h2 h3]
    dsimp only
    rw [if_pos ⟨rfl, rfl⟩]
  · obtain ⟨d, L, hshape, hd10, hdne0, hLdig⟩ := natChars_pos_shape n h0
    have htw : (L ++ rest).takeWhile isDigitCh = L := by
      rw [takeWhile_append_all isDigitCh L rest hLdig,
        takeWhile_head_false isDigitCh rest hd, List.append_nil]
    have hdw : (L ++ rest).dropWhile isDigitCh = rest := by
      rw [dropWhile_append_all isDigitCh L rest hLdig,
        dropWhile_head_false isDigitCh rest hd]
    rw [hshape, List.cons_append]
    unfold parseUNumber
    dsimp only
    rw [if_pos (digitChar_isDigit d hd10),
      if_neg (digitChar_ne_zero d hd10 hdne0), htw, hdw,
      parseFrac_not rest h1]
    dsimp only
    rw [parseExp_not rest h2 h3]
    dsimp only
    rw [← hshape, digitsVal_natChars]
    rw [if_pos ⟨rfl, rfl, hn⟩]

lemma intercalate_single (x : List Char) : List.intercalate [','] [x] = x := by
  simp [List.intercalate]

lemma intercalate_cons_cons (x y : List Char) (l : List (List Char)) :
    List.intercalate [','] (x :: y :: l)
      = x ++ ',' :: List.intercalate [','] (y :: l) := by
  simp [List.intercalate, List.intersperse]

lemma parseElems_step (f : Nat) (n : Nat) (hn : n < 2 ^ 53) (rest : List Char)
    (hd : ∀ c, rest.head? = some c → isDigitCh c = false)
    (h1 : rest.head? ≠ some '.') (h2 : rest.head? ≠ some 'e')
    (h3 : rest.head? ≠ some 'E') :
    parseRun (f + 1) .elems (natChars n ++ rest)
      = (if (skipWS rest).head? = some ']' then
          some (.es (some [n]), (skipWS rest).drop 1)
        else if (skipWS rest).head? = some ',' then
          match parseRun f .elems ((skipWS rest).drop 1) with
          | some (.es acc, rest2) => some (.es (consAcc (some n) acc), rest2)
          | _ => none
        else none) := by
  obtain ⟨c0, t0, hsh, hc0⟩ := natChars_head_digit n
  have hskip : skipWS (natChars n ++ rest) = natChars n ++ rest := by
    rw [hsh, List.cons_append, skipWS_cons_not _ _ (jsWS_of_digit c0 hc0),
      ← List.cons_append, ← hsh]
  have hhead : (natChars n ++ rest).head? = some c0 := by
    rw [hsh, List.cons_append]
    rfl
  simp only [parseRun]
  rw [hskip, hhead]
  dsimp only
  rw [if_pos hc0, parseUNumber_natChars n hn rest hd h1 h2 h3]
  dsimp only [oneAcc]

lemma parseElems_canon : ∀ (D : List Nat) (fuel : Nat),
    (∀ d ∈ D, d < 2 ^ 53) → D ≠ [] →
    (List.intercalate [','] (D.map natChars) ++ [']']).length + 1 ≤ fuel →
    parseRun fuel .elems (List.intercalate [','] (D.map natChars) ++ [']'])
      = some (.es (some D), [])
  | [], _, _, hne, _ => absurd rfl hne
  | [d], fuel, hlt, _, hfuel => by
    obtain ⟨f, rfl⟩ : ∃ f, fuel = f + 1 := ⟨fuel - 1, by omega⟩
    rw [List.map_cons, List.map_nil, intercalate_single]
    rw [parseElems_step f d (hlt d (List.mem_cons_self _ _)) [']']
      (by intro c hc; simp only [List.head?] at hc; cases hc; decide)
      (by decide) (by decide) (by decide)]
    rw [skipWS_cons_not ']' [] (by decide)]
    dsimp only [List.head?]
    rw [if_pos rfl]
    rfl
  | d1 :: d2 :: ds, fuel, hlt, _, hfuel => by
    obtain ⟨f, rfl⟩ : ∃ f, fuel = f + 1 := ⟨fuel - 1, by omega⟩
    rw [List.map_cons, List.map_cons, intercalate_cons_cons,
      List.append_assoc, List.cons_append]
    rw [parseElems_step f d1 (hlt d1 (List.mem_cons_self _ _))
      (',' :: (List.intercalate [','] (natChars d2 :: ds.map natChars) ++ [']']))
      (by intro c hc; simp only [List.head?] at hc; cases hc; decide)
      (by simp) (by simp) (by simp)]
    rw [skipWS_cons_not ',' _ (by decide)]
    dsimp only [List.head?]
    rw [if_neg (by decide), if_pos rfl]
    dsimp only [List.drop_succ_cons, List.drop_zero]
    have hrec : parseRun f .elems
        (List.intercalate [','] (natChars d2 :: ds.map natChars) ++ [']'])
        = some (.es (some (d2 :: ds)), []) := by
      have hmap : natChars d2 :: ds.map natChars = (d2 :: ds).map natChars := by
        rw [List.map_cons]
      rw [hmap]
      refine parseElems_canon (d2 :: ds) f
        (fun x hx => hlt x (List.mem_cons_of_mem _ hx)) (by simp) ?_
      rw [List.map_cons, List.map_cons, intercalate_cons_cons] at hfuel
      have hpos : 0 < (natChars d1).length :=
        List.length_pos.mpr (natChars_ne_nil d1)
      simp only [List.length_append, List.length_cons, List.map_cons] at hfuel ⊢
      omega
    rw [hrec]
    dsimp only [consAcc]

lemma jsonParse_stringify (D : List Nat) (hD : ∀ d ∈ D, d < 2 ^ 53) :
    jsonParse (jsonStringify D) = .arr D := by
  cases D with
  | nil => decide
  | cons d ds =>
    obtain ⟨rest0, hrest0⟩ :
        ∃ r, List.intercalate [','] ((d :: ds).map natChars) ++ [']']
          = natChars d ++ r := by
      cases ds with
      | nil =>
        exact ⟨[']'], by rw [List.map_cons, List.map_nil, intercalate_single]⟩
      | cons d2 ds2 =>
        refine ⟨',' :: (List.intercalate [',']
          ((d2 :: ds2).map natChars) ++ [']']), ?_⟩
        rw [List.map_cons, List.map_cons, intercalate_cons_cons,
          List.append_assoc, List.cons_append]
    obtain ⟨c0, t0, hsh, hc0⟩ := natChars_head_digit d
    have hskip : skipWS (natChars d ++ rest0) = natChars d ++ rest0 := by
      rw [hsh, List.cons_append, skipWS_cons_not _ _ (jsWS_of_digit c0 hc0),
        ← List.cons_append, ← hsh]
    have hhead : (natChars d ++ rest0).head? = some c0 := by
      rw [hsh, List.cons_append]
      rfl
    unfold jsonParse jsonStringify
    dsimp only
    rw [List.cons_append, skipWS_cons_not '[' _ (by decide)]
    obtain ⟨F, hF⟩ : ∃ F,
        2 * ('[' :: (List.intercalate [','] ((d :: ds).map natChars)
          ++ [']'])).length + 2 = F + 1 :=
      ⟨2 * ('[' :: (List.intercalate [','] ((d :: ds).map natChars)
        ++ [']'])).length + 1, rfl⟩
    rw [hF]
    simp only [parseRun]
    rw [if_pos True.intro, hrest0, hskip, hhead]
    rw [if_neg (show ¬('[' = '"') by decide)]
    rw [if_neg (by
      intro hcc
      rw [Option.some_inj.mp hcc] at hc0
      exact absurd hc0 (by decide))]
    rw [← hrest0]
    rw [parseElems_canon (d :: ds) F hD (by simp) (by
      simp only [List.length_cons, List.length_append] at hF ⊢
      omega)]
    dsimp only
    rw [if_pos (show skipWS [] = ([] : List Char) from rfl)]

lemma jsonStringify_ne_empty (D : List Nat) : jsonStringify D ≠ "" := by
  unfold jsonStringify
  intro h
  have h2 := congrArg String.data h
  simp at h2

lemma storeGet_storeSet_self (store : List (String × String)) (k v : String) :
    storeGet (storeSet store k v) k = some v := by
  simp [storeGet, storeSet, List.find?_cons_of_pos]

lemma getStream_append_last (st : GlkState) (s : GStream) :
    getStream { st with streams := st.streams ++ [s] } st.streams.length = s := by
  simp only [getStream]
  exact getD_append_len st.streams s (freshStream 0)

lemma open_file_read_data (st : GlkState) (f : String) (rock : Int) :
    (getStream (glk_stream_open_file st f 2 rock).1
        (glk_stream_open_file st f 2 rock).2).data
      = (match storeGet st.store f with
         | some saved =>
           if saved ≠ "" then
             match jsonParse saved with
             | .arr dd => dd
             | .other => []
             | .err => []
           else []
         | none => []) := by
  simp only [glk_stream_open_file, eq_self_iff_true, true_or, if_true]
  rw [getStream_append_last]
  cases hsg : storeGet st.store f with
  | none => rfl
  | some saved =>
    dsimp only
    by_cases hse : saved ≠ ""
    · rw [if_pos hse, if_pos hse]
      cases hjp : jsonParse saved with
      | arr dd => rfl
      | other => rfl
      | err => rfl
    · rw [if_neg hse, if_neg hse]
      rfl

lemma close_write_store (st : GlkState) (sid : Nat) (N : String) (D : List Nat)
    (hf : (getStream st sid).fref = some N)
    (hm : (getStream st sid).fmode = some 1)
    (hd : (getStream st sid).data = D) :
    (glk_stream_close st sid none).1
      = { st with store := storeSet st.store N (jsonStringify D) } := by
  simp only [glk_stream_close, hf, hm, hd, eq_self_iff_true, true_or, if_true,
    Option.map_none]

/-- C6: closing a write-mode file stream whose byte data is `D` and whose
fileref names `N` serializes `D` into the store under `N`, and re-opening a
read-mode file stream for `N` yields a stream whose data equals `D` (round
trip); opening a read-mode file stream for a name with no stored value
yields empty data rather than an error; and stored data on which the JSON
parse throws is treated as absent — the opened stream has empty data, never
a failure. -/
theorem file_round_trip (st : GlkState) (sid : Nat) (D : List Nat) (N : String)
    (rock rock2 : Int)
    (hbytes : ∀ d ∈ D, d < 256)
    (hf : (getStream st sid).fref = some N)
    (hm : (getStream st sid).fmode = some 1)
    (hd : (getStream st sid).data = D) :
    (getStream (glk_stream_open_file (glk_stream_close st sid none).1 N 2 rock).1
        (glk_stream_open_file (glk_stream_close st sid none).1 N 2 rock).2).data
      = D ∧
    (∀ M : String, storeGet st.store M = none →
      (getStream (glk_stream_open_file st M 2 rock2).1
          (glk_stream_open_file st M 2 rock2).2).data = []) ∧
    (∀ M junk : String, storeGet st.store M = some junk →
      jsonParse junk = .err →
      (getStream (glk_stream_open_file st M 2 rock2).1
          (glk_stream_open_file st M 2 rock2).2).data = []) := by
  refine ⟨?_, ?_, ?_⟩
  · rw [close_write_store st sid N D hf hm hd, open_file_read_data]
    dsimp only
    rw [storeGet_storeSet_self]
    dsimp only
    rw [if_pos (jsonStringify_ne_empty D),
      jsonParse_stringify D (fun x hx => lt_trans (hbytes x hx) (by norm_num))]
  · intro M hM
    rw [open_file_read_data, hM]
  · intro M junk hM hjp
    rw [open_file_read_data, hM]
    dsimp only
    by_cases hse : junk ≠ ""
    · rw [if_pos hse, hjp]
    · rw [if_neg hse]

theorem file_round_trip_witness :
    (getStream (glk_stream_open_file (glk_stream_close
        (setStream (initState [] [("bad", "notjson")]) 0
          { freshStream 0 with fref := some "slot1", fmode := some 1,
                               data := [1, 2, 3] }) 0 none).1 "slot1" 2 0).1
        (glk_stream_open_file (glk_stream_close
        (setStream (initState [] [("bad", "notjson")]) 0
          { freshStream 0 with fref := some "slot1", fmode := some 1,
                               data := [1, 2, 3] }) 0 none).1 "slot1" 2 0).2).data
      = [1, 2, 3] ∧
    (getStream (glk_stream_open_file
        (setStream (initState [] [("bad", "notjson")]) 0
          { freshStream 0 with fref := some "slot1", fmode := some 1,
                               data := [1, 2, 3] }) "missing" 2 0).1
        (glk_stream_open_file
        (setStream (initState [] [("bad", "notjson")]) 0
          { freshStream 0 with fref := some "slot1", fmode := some 1,
                               data := [1, 2, 3] }) "missing" 2 0).2).data
      = [] ∧
    (getStream (glk_stream_open_file
        (setStream (initState [] [("bad", "notjson")]) 0
          { freshStream 0 with fref := some "slot1", fmode := some 1,
                               data := [1, 2, 3] }) "bad" 2 0).1
        (glk_stream_open_file
        (setStream (initState [] [("bad", "notjson")]) 0
          { freshStream 0 with fref := some "slot1", fmode := some 1,
                               data := [1, 2, 3] }) "bad" 2 0).2).data
      = [] := by
  have h := file_round_trip
    (setStream (initState [] [("bad", "notjson")]) 0
      { freshStream 0 with fref := some "slot1", fmode := some 1,
                           data := [1, 2, 3] }) 0 [1, 2, 3] "slot1" 0 0
    (by decide) rfl rfl rfl
  exact ⟨h.1, h.2.1 "missing" (by decide), h.2.2 "bad" "notjson" (by decide)
    (by decide)⟩
